import Mathlib

/-!
Verification development for the Go package `go.wamod.dev/warning`.

A shallow embedding of the package: Go `error` values, `Warning` interface values, the
`Collector`, `ReadAll`, the `Scanner`, the composable writers, the context plumbing
(`getWriter`, `setWriter`, `Warn`, `Attach`, `Detach`) and the operators of `helpers.go`.

Conventions of the embedding.

* A Go interface value that may be nil is a Lean value of a type with a `nil` constructor
  (`Warning`) or an `Option` (`Option Error`, `Option Writer`).
* Go objects with hidden mutable state are modelled by explicit state passing: a method
  takes the state before the call and returns its results together with the state after.
* Values are compared structurally; Go pointer identity is not modelled.
* `collector.go`, `reader.go` and `writer.go` are not among the sources; `Collector`,
  `ReadAll` and the multi-writer are modelled from the specification and marked so.
-/

namespace GoWarning

/-! ## Errors (`errors`, `io.EOF`, `errors.go`) -/

/-- Go `error` values other than nil: `io.EOF`, the package's `ErrClosed`, any other
error value (told apart by `id`), and the result of `errors.Join`. -/
inductive Error where
  | eof
  | closed
  | other (id : Nat)
  | join (errs : List Error)

mutual
/-- Structural equality test on errors. -/
def Error.beq : Error → Error → Bool
  | .eof, .eof => true
  | .closed, .closed => true
  | .other a, .other b => a == b
  | .join as, .join bs => Error.beqList as bs
  | _, _ => false
/-- Structural equality test on lists of errors. -/
def Error.beqList : List Error → List Error → Bool
  | [], [] => true
  | a :: as, b :: bs => Error.beq a b && Error.beqList as bs
  | _, _ => false
end

mutual
theorem Error.beq_iff : ∀ (a b : Error), Error.beq a b = true ↔ a = b
  | .eof, b => by cases b <;> simp [Error.beq]
  | .closed, b => by cases b <;> simp [Error.beq]
  | .other n, b => by cases b <;> simp [Error.beq]
  | .join as, b => by
      cases b with
      | join bs => simp [Error.beq, Error.beqList_iff as bs]
      | _ => simp [Error.beq]
theorem Error.beqList_iff : ∀ (as bs : List Error), Error.beqList as bs = true ↔ as = bs
  | [], bs => by cases bs <;> simp [Error.beqList]
  | a :: as, bs => by
      cases bs with
      | nil => simp [Error.beqList]
      | cons b bs => simp [Error.beqList, Error.beq_iff a b, Error.beqList_iff as bs]
end

instance : DecidableEq Error := fun a b =>
  if h : Error.beq a b = true then isTrue ((Error.beq_iff a b).1 h)
  else isFalse (fun e => h ((Error.beq_iff a b).2 e))

/-- The variable `ErrClosed` of `errors.go`. -/
abbrev ErrClosed : Error := .closed

/-- The variable `io.EOF`. -/
abbrev ioEOF : Error := .eof

mutual
/-- The tree walk of `errors.Is` for a non-nil `err` and a non-nil `target`: `err` matches
when it equals `target` or, for a joined error, when one of its members matches. -/
def Error.matches (target : Error) : Error → Bool
  | .join errs => decide (Error.join errs = target) || Error.matchesAny target errs
  | .eof => decide (Error.eof = target)
  | .closed => decide (Error.closed = target)
  | .other n => decide (Error.other n = target)
/-- The loop of `errors.Is` over the members of a joined error. -/
def Error.matchesAny (target : Error) : List Error → Bool
  | [] => false
  | e :: es => Error.matches target e || Error.matchesAny target es
end

/-- The function `errors.Is(err, target)`: when either side is nil the answer is
`err == target`. -/
def errorsIs (err target : Option Error) : Bool :=
  match err, target with
  | some e, some t => Error.matches t e
  | none, none => true
  | _, _ => false

/-- The function `errors.Join(errs...)`: nil values are discarded; nil when nothing is
left, else one error holding the others in order. -/
def errorsJoin (errs : List (Option Error)) : Option Error :=
  match errs.reduceOption with
  | [] => none
  | e :: es => some (.join (e :: es))

/-! ## Warnings (`warning.go`) -/

/-- Values of the interface type `Warning`: the nil interface value, a `*warningString`
(made by `New`), or a value of a caller-defined type implementing the interface
(`typ` names the type, `text` is what its `Warn()` renders). -/
inductive Warning where
  | nil
  | warningString (msg : String)
  | custom (typ : Nat) (text : String)
deriving DecidableEq, Repr

/-- The method `Warn()` of a warning (the empty string stands for the nil value, on which
Go would not return). -/
def Warning.Warn : Warning → String
  | .nil => ""
  | .warningString msg => msg
  | .custom _ text => text

/-- The constructor `New(msg)`. -/
def New (msg : String) : Warning := .warningString msg

/-! ## Readers -/

/-- The interface `Reader` over a state type `ρ`: `ReadWarning` takes the state of the
reader object and returns `(Warning, error)` with the state after the call. -/
structure Reader (ρ : Type) where
  ReadWarning : ρ → (Warning × Option Error) × ρ

/-- The type `mockReader` of `reader_test.go`: a list of canned results, handed out one per
call; `io.EOF` once the list is empty. -/
def mockReader : Reader (List (Warning × Option Error)) where
  ReadWarning
    | [] => ((.nil, some ioEOF), [])
    | result :: results => (result, results)

/-- Modelled from the spec: `ReadAll` (reader.go is not among the sources). It reads until
`ReadWarning` returns an error; the exhaustion signal means stop and return what was
accumulated with no error. Of any other error the spec says only that it is a failure
distinct from exhaustion: the last branch returns that error, and with it no warnings as
`TestReadAll_UnexpectedError` of `reader_test.go` expects; nothing is proved about that
choice, and `flush` of `Reduce`, its one caller in the package, looks only at whether the
error is nil.
`fuel` bounds the number of reads; `none` means the bound was reached. -/
def ReadAll.loop {ρ : Type} (R : Reader ρ) :
    Nat → ρ → List Warning → Option ((List Warning × Option Error) × ρ)
  | 0, _, _ => none
  | fuel + 1, r, wrrs =>
    match R.ReadWarning r with
    | ((wrr, none), r') => ReadAll.loop R fuel r' (wrrs ++ [wrr])
    | ((_, some err), r') =>
      if errorsIs (some err) (some ioEOF) then some ((wrrs, none), r')
      else some (([], some err), r')

/-- Modelled from the spec: `ReadAll(r)` (reader.go is not among the sources), see
`ReadAll.loop`. -/
def ReadAll {ρ : Type} (R : Reader ρ) (fuel : Nat) (r : ρ) :
    Option ((List Warning × Option Error) × ρ) :=
  ReadAll.loop R fuel r []

/-! ## Collector -/

/-- Modelled from the spec: the state of a `Collector` (collector.go is not among the
sources): a first-in first-out queue of warnings and a closed flag. -/
structure Collector where
  queue : List Warning
  closed : Bool
deriving DecidableEq, Repr

/-- Modelled from the spec: `NewCollector()` (collector.go is not among the sources):
created open, with an empty queue. -/
def NewCollector : Collector := { queue := [], closed := false }

/-- Modelled from the spec: `Collector.WriteWarning` (collector.go is not among the
sources): while open, enqueues and returns no error; while closed, returns the closed
error without enqueuing. -/
def Collector.WriteWarning (c : Collector) (wrr : Warning) : Option Error × Collector :=
  if c.closed then (some ErrClosed, c)
  else (none, { c with queue := c.queue ++ [wrr] })

/-- Modelled from the spec: `Collector.ReadWarning` (collector.go is not among the
sources): once closed, the closed error whatever is buffered; while open and non-empty,
dequeues first-in first-out; while open and empty, the exhaustion signal. -/
def Collector.ReadWarning (c : Collector) : (Warning × Option Error) × Collector :=
  if c.closed then ((.nil, some ErrClosed), c)
  else
    match c.queue with
    | [] => ((.nil, some ioEOF), c)
    | wrr :: rest => ((wrr, none), { c with queue := rest })

/-- Modelled from the spec: `Collector.Close` (collector.go is not among the sources): the
first call moves the collector from open to closed and returns no error; every later call
returns the closed error; the queue is not cleared. -/
def Collector.Close (c : Collector) : Option Error × Collector :=
  if c.closed then (some ErrClosed, c)
  else (none, { c with closed := true })

/-- A collector seen through the interface `Reader`. -/
def Collector.reader : Reader Collector where
  ReadWarning := Collector.ReadWarning

/-- One call on a collector. -/
inductive Op where
  | write (wrr : Warning)
  | read
  | close
deriving DecidableEq, Repr

/-- Whether the call is `Close`. -/
def Op.isClose : Op → Bool
  | .close => true
  | _ => false

/-- The state of a collector after one call. -/
def Collector.step (c : Collector) : Op → Collector
  | .write wrr => (c.WriteWarning wrr).2
  | .read => c.ReadWarning.2
  | .close => c.Close.2

/-- The state of a collector after a sequence of calls. -/
def Collector.run (c : Collector) (ops : List Op) : Collector :=
  ops.foldl Collector.step c

/-- The errors returned by writing `wrrs` in order to a collector, with the state after. -/
def Collector.writeAll : Collector → List Warning → List (Option Error) × Collector
  | c, [] => ([], c)
  | c, wrr :: rest =>
    let r := c.WriteWarning wrr
    let rs := Collector.writeAll r.2 rest
    (r.1 :: rs.1, rs.2)

/-! ## Scanner (`scanner.go`) -/

/-- The struct `scanner`: the state of its reader, the current warning and the sticky
error. -/
structure scanner (ρ : Type) where
  reader : ρ
  wrr : Warning
  err : Option Error

/-- The constructor `NewScanner(r)`. -/
def NewScanner {ρ : Type} (r : ρ) : scanner ρ := { reader := r, wrr := .nil, err := none }

/-- The method `Scan()`: nothing is done once an error is stored; else one `ReadWarning`,
whose outcome is exhaustion (`errors.Is(err, io.EOF)`), a failure, or a warning. -/
def scanner.Scan {ρ : Type} (R : Reader ρ) (s : scanner ρ) : Bool × scanner ρ :=
  if s.err ≠ none then (false, s)
  else
    match R.ReadWarning s.reader with
    | ((wrr, err), r') =>
      if errorsIs err (some ioEOF) then (false, { reader := r', wrr := .nil, err := s.err })
      else if err ≠ none then (false, { reader := r', wrr := s.wrr, err := err })
      else (true, { reader := r', wrr := wrr, err := s.err })

/-- The method `Warning()`. -/
def scanner.Warning {ρ : Type} (s : scanner ρ) : Warning := s.wrr

/-- The method `Err()`. -/
def scanner.Err {ρ : Type} (s : scanner ρ) : Option Error := s.err

/-- The scanner after `k` calls of `Scan()`. -/
def scanner.after {ρ : Type} (R : Reader ρ) : Nat → scanner ρ → scanner ρ
  | 0, s => s
  | k + 1, s => scanner.after R k (s.Scan R).2

/-- What a caller sees over `k` calls of `Scan()`: for each call its result, then
`Warning()` and `Err()` right after it. -/
def scanner.observe {ρ : Type} (R : Reader ρ) :
    Nat → scanner ρ → List (Bool × GoWarning.Warning × Option Error)
  | 0, _ => []
  | k + 1, s =>
    let r := s.Scan R
    (r.1, r.2.Warning, r.2.Err) :: scanner.observe R k r.2

/-- The reader at state `r` yields the warnings `wrrs` in order, each without error, and
then signals exhaustion. -/
def Reader.yields {ρ : Type} (R : Reader ρ) : ρ → List Warning → Bool
  | r, [] => errorsIs (R.ReadWarning r).1.2 (some ioEOF)
  | r, wrr :: rest =>
    decide ((R.ReadWarning r).1 = (wrr, none)) && Reader.yields R (R.ReadWarning r).2 rest

/-- A reader that also counts the calls of `ReadWarning` made on it. -/
def Reader.counted {ρ : Type} (R : Reader ρ) : Reader (ρ × Nat) where
  ReadWarning := fun s => ((R.ReadWarning s.1).1, ((R.ReadWarning s.1).2, s.2 + 1))

/-! ## Writers (`helpers.go`, and the multi-writer) -/

/-- What happens outside the package during a run: a call of `WriteWarning(wrr)` on the
caller-supplied writer `w`, with the error it returned, or a call of the observer function
`g` installed by `Tap`. -/
inductive Event where
  | write (w : Nat) (wrr : Warning) (res : Option Error)
  | tap (g : Nat) (wrr : Warning)
deriving DecidableEq

/-- Values of the interface type `Writer` other than nil: a caller-supplied writer (such as
the tests' `mockWriter`) known by its identity, a `*Collector` known by its address, a
multi-writer over its children, and the three decorators of `helpers.go`. The observer of a
`tapWriter` is known by its identity `tapFunc`, since it is called for its effect. -/
inductive Writer where
  | ext (w : Nat)
  | collector (addr : Nat)
  | multiWriter (writers : List Writer)
  | mapWriter (next : Writer) (mapFunc : Warning → Warning)
  | filterWriter (next : Writer) (filterFunc : Warning → Bool)
  | tapWriter (next : Writer) (tapFunc : Nat)

/-- The mutable state a run acts on: the collectors by address (`fresh` is the next unused
address) and the trace of the calls made on caller-supplied writers and observers. -/
structure World where
  heap : Nat → Collector
  fresh : Nat
  trace : List Event

/-- The world before anything ran. -/
def World.init : World := { heap := fun _ => NewCollector, fresh := 0, trace := [] }

/-- How the caller-supplied writers behave: the error writer `w` returns from
`WriteWarning(wrr)`, which may depend on everything that was called before. -/
abbrev Behaviour := List Event → Nat → Warning → Option Error

/-- The behaviour of the tests' `mockWriter`: writer `w` always returns `result w`. -/
def mockBehaviour (result : Nat → Option Error) : Behaviour := fun _ w _ => result w

/-- Modelled from the spec: `NewMultiWriter(writers...)` (writer.go is not among the
sources). -/
def NewMultiWriter (writers : List Writer) : Writer := .multiWriter writers

mutual
/-- The method `WriteWarning` of each kind of writer. `mapWriter`, `filterWriter` and
`tapWriter` are those of `helpers.go`. Modelled from the spec: the `multiWriter` case
(writer.go is not among the sources) calls every child in registration order, goes on past
failures and joins the errors; the `collector` case is `Collector.WriteWarning`. -/
def Writer.WriteWarning (β : Behaviour) : Writer → Warning → World → Option Error × World
  | .ext w, wrr, σ =>
    (β σ.trace w wrr, { σ with trace := σ.trace ++ [.write w wrr (β σ.trace w wrr)] })
  | .collector addr, wrr, σ =>
    (((σ.heap addr).WriteWarning wrr).1,
      { σ with heap := Function.update σ.heap addr ((σ.heap addr).WriteWarning wrr).2 })
  | .multiWriter writers, wrr, σ =>
    (errorsJoin (Writer.writeEach β writers wrr σ).1, (Writer.writeEach β writers wrr σ).2)
  | .mapWriter next mapFunc, wrr, σ => Writer.WriteWarning β next (mapFunc wrr) σ
  | .filterWriter next filterFunc, wrr, σ =>
    if filterFunc wrr then Writer.WriteWarning β next wrr σ else (none, σ)
  | .tapWriter next tapFunc, wrr, σ =>
    Writer.WriteWarning β next wrr { σ with trace := σ.trace ++ [.tap tapFunc wrr] }
/-- Modelled from the spec: the loop of the multi-writer over its children (writer.go is
not among the sources): the error of each child in order, and the world after. -/
def Writer.writeEach (β : Behaviour) : List Writer → Warning → World →
    List (Option Error) × World
  | [], _, σ => ([], σ)
  | w :: ws, wrr, σ =>
    ((Writer.WriteWarning β w wrr σ).1 :: (Writer.writeEach β ws wrr (Writer.WriteWarning β w wrr σ).2).1,
      (Writer.writeEach β ws wrr (Writer.WriteWarning β w wrr σ).2).2)
end

/-- Calling `writer.WriteWarning` once for each of `wrrs`, in order, whatever the earlier
calls returned: the error of each call, and the world after the last. -/
def Writer.writeInOrder (β : Behaviour) (writer : Writer) :
    List Warning → World → List (Option Error) × World
  | [], σ => ([], σ)
  | wrr :: rest, σ =>
    ((writer.WriteWarning β wrr σ).1 :: (Writer.writeInOrder β writer rest (writer.WriteWarning β wrr σ).2).1,
      (Writer.writeInOrder β writer rest (writer.WriteWarning β wrr σ).2).2)

/-- The warnings with which `WriteWarning` was called on the caller-supplied writer `w`, in
call order. -/
def received (w : Nat) : List Event → List Warning
  | [] => []
  | .write v wrr _ :: rest => if v = w then wrr :: received w rest else received w rest
  | .tap _ _ :: rest => received w rest

/-! ## Context plumbing (`warning.go`) -/

/-- Values of `context.Context` as far as this package can tell them apart: the background
context, a context derived by `context.WithValue(parent, writerKey{}, w)` (where `w` may be
a nil `Writer`), and a context derived in any other way. The key type `writerKey` is not
exported, so only `setWriter` binds it. -/
inductive Context where
  | background
  | withWriter (parent : Context) (w : Option Writer)
  | derived (parent : Context) (tag : Nat)

/-- The function `setWriter`. -/
def setWriter (ctx : Context) (w : Option Writer) : Context := .withWriter ctx w

/-- The function `getWriter`: the value bound to `writerKey{}` nearest to `ctx`, when it is
a non-nil `Writer`; nil when the key is unbound or bound to nil. -/
def getWriter : Context → Option Writer
  | .background => none
  | .withWriter _ w => w
  | .derived parent _ => getWriter parent

/-- The loop of `Warn`: each warning is written, and the non-nil errors are appended to
`errs`. -/
def Warn.loop (β : Behaviour) (writer : Writer) :
    List Warning → List Error → World → List Error × World
  | [], errs, σ => (errs, σ)
  | wrr :: rest, errs, σ =>
    match writer.WriteWarning β wrr σ with
    | (some err, σ') => Warn.loop β writer rest (errs ++ [err]) σ'
    | (none, σ') => Warn.loop β writer rest errs σ'

/-- The function `Warn(ctx, wrrs...)`. -/
def Warn (β : Behaviour) (ctx : Context) (wrrs : List Warning) (σ : World) :
    Option Error × World :=
  match getWriter ctx with
  | none => (none, σ)
  | some writer =>
    ((errorsJoin ((Warn.loop β writer wrrs [] σ).1.map some)), (Warn.loop β writer wrrs [] σ).2)

/-- The function `Attach(ctx, writer)`. -/
def Attach (ctx : Context) (writer : Writer) : Context :=
  match getWriter ctx with
  | some found => setWriter ctx (some (NewMultiWriter [found, writer]))
  | none => setWriter ctx (some writer)

/-- The function `Detach(ctx)`. -/
def Detach (ctx : Context) : Context :=
  match getWriter ctx with
  | none => ctx
  | some _ => setWriter ctx none

/-! ## Operators (`helpers.go`) -/

/-- The function `Map(ctx, mapFunc)`. -/
def Map (ctx : Context) (mapFunc : Warning → Warning) : Context :=
  match getWriter ctx with
  | none => ctx
  | some writer => setWriter ctx (some (.mapWriter writer mapFunc))

/-- The function `Filter(ctx, filterFunc)`. -/
def Filter (ctx : Context) (filterFunc : Warning → Bool) : Context :=
  match getWriter ctx with
  | none => ctx
  | some writer => setWriter ctx (some (.filterWriter writer filterFunc))

/-- The function `Tap(ctx, tapFunc)`. -/
def Tap (ctx : Context) (tapFunc : Nat) : Context :=
  match getWriter ctx with
  | none => ctx
  | some writer => setWriter ctx (some (.tapWriter writer tapFunc))

/-- The deferred `collector.Close()` of the function `flush`, on the collector at
`addr`. -/
def World.closeCollector (σ : World) (addr : Nat) : World :=
  { σ with heap := Function.update σ.heap addr (σ.heap addr).Close.2 }

/-- The function `flush` returned by `Reduce` on a context bound to `writer`, for the
collector at `addr`. The type parameter `T` is `τ`, with zero value `zero` and conversion
`conv` to the interface `Warning`. `fuel` bounds the reads of `ReadAll`; `none` means the
bound was reached. -/
def Reduce.flush {τ : Type} (β : Behaviour) (zero : τ) (conv : τ → Warning)
    (reduceFunc : τ → Warning → τ) (writer : Writer) (addr : Nat) (fuel : Nat) (σ : World) :
    Option World :=
  match ReadAll Collector.reader fuel (σ.heap addr) with
  | none => none
  | some ((wrrs, err), c') =>
    if err ≠ none ∨ wrrs.length = 0 then
      some (World.closeCollector { σ with heap := Function.update σ.heap addr c' } addr)
    else
      some (World.closeCollector
        (writer.WriteWarning β (conv (wrrs.foldl reduceFunc zero))
          { σ with heap := Function.update σ.heap addr c' }).2 addr)

/-- The function `Reduce(ctx, reduceFunc)`: the new context and the function `flush`, with
the world after `NewCollector()` when a writer is bound. -/
def Reduce {τ : Type} (β : Behaviour) (zero : τ) (conv : τ → Warning) (ctx : Context)
    (reduceFunc : τ → Warning → τ) (σ : World) :
    (Context × (Nat → World → Option World)) × World :=
  match getWriter ctx with
  | none => ((ctx, fun _ σ' => some σ'), σ)
  | some writer =>
    ((setWriter ctx (some (.collector σ.fresh)),
        Reduce.flush β zero conv reduceFunc writer σ.fresh),
      { σ with heap := Function.update σ.heap σ.fresh NewCollector, fresh := σ.fresh + 1 })

/-- The warnings with which the observer `g` was called, in call order. -/
def tapped (g : Nat) : List Event → List Warning
  | [] => []
  | .write _ _ _ :: rest => tapped g rest
  | .tap f wrr :: rest => if f = g then wrr :: tapped g rest else tapped g rest

/-- The trace left by writing `wrrs` through a tap with observer `g` over the
caller-supplied writer `a` whose calls return `rs`: for each warning the call of the
observer, then the call of the writer. -/
def tapEvents (g a : Nat) : List Warning → List (Option Error) → List Event
  | wrr :: rest, r :: rs => .tap g wrr :: .write a wrr r :: tapEvents g a rest rs
  | _, _ => []

/-! ## `Warnf` (`warning.go`) -/

/-- Values of type `any` passed to `Warnf`: a value whose type implements `Warning`, a
string, or a value of any other type (told apart by `id`). A nil `Warning` put in an `any`
is the nil `any`, which implements nothing. -/
inductive Any where
  | warning (wrr : Warning)
  | str (s : String)
  | other (id : Nat)
deriving DecidableEq, Repr

/-- The type assertion `arg.(Warning)`. -/
def Any.asWarning : Any → Option Warning
  | .warning .nil => none
  | .warning wrr => some wrr
  | _ => none

/-- The loop of `Warnf` over its arguments: an argument that is a `Warning` is replaced by
the string its `Warn()` returns. -/
def Warnf.replace : List Any → List Any
  | [] => []
  | arg :: rest =>
    match arg.asWarning with
    | some wrr => .str wrr.Warn :: Warnf.replace rest
    | none => arg :: Warnf.replace rest

/-- The function `Warnf(ctx, format, args...)`; `Sprintf` stands for `fmt.Sprintf`. -/
def Warnf (Sprintf : String → List Any → String) (β : Behaviour) (ctx : Context)
    (format : String) (args : List Any) (σ : World) : Option Error × World :=
  Warn β ctx [New (Sprintf format (Warnf.replace args))] σ

/-- The text of the warning `Warnf` writes, in the words of its documentation: `format`
formatted over `args` after every argument that is a `Warning` has been replaced by the
string its `Warn()` returns. -/
def Warnf.text (Sprintf : String → List Any → String) (format : String) (args : List Any) :
    String :=
  Sprintf format (args.map fun arg =>
    match arg with
    | .warning .nil => arg
    | .warning wrr => .str wrr.Warn
    | _ => arg)

/-! ## Calls made after `flush` -/

/-- One later use of what `Reduce` returned: a call of `flush` (its reads bounded by
`fuel + 1`) or a call of `Warn` with `wrrs` on the returned context. -/
inductive ReduceCall where
  | flush (fuel : Nat)
  | warn (wrrs : List Warning)

/-- The world after a sequence of later uses of the context `ctx'` and the function `flush`
returned by `Reduce`; `none` means a bound on the reads was reached. -/
def ReduceCall.run (β : Behaviour) (ctx' : Context) (flush : Nat → World → Option World) :
    List ReduceCall → World → Option World
  | [], σ => some σ
  | .flush fuel :: rest, σ =>
    match flush (fuel + 1) σ with
    | none => none
    | some σ' => ReduceCall.run β ctx' flush rest σ'
  | .warn wrrs :: rest, σ => ReduceCall.run β ctx' flush rest (Warn β ctx' wrrs σ).2

/-! ## Lemmas on the collector -/

theorem Collector.writeAll_open (wrrs : List Warning) : ∀ q : List Warning,
    Collector.writeAll { queue := q, closed := false } wrrs
      = (List.replicate wrrs.length none, { queue := q ++ wrrs, closed := false }) := by
  induction wrrs with
  | nil => intro q; simp [Collector.writeAll]
  | cons wrr rest ih =>
    intro q
    simp [Collector.writeAll, Collector.WriteWarning, ih, List.replicate_succ]

theorem ReadAll.loop_collector (q : List Warning) : ∀ (acc : List Warning) (k : Nat),
    ReadAll.loop Collector.reader (k + (q.length + 1)) { queue := q, closed := false } acc
      = some ((acc ++ q, none), NewCollector) := by
  induction q with
  | nil =>
    intro acc k
    simp [ReadAll.loop, Collector.reader, Collector.ReadWarning, errorsIs, Error.matches,
      NewCollector]
  | cons wrr rest ih =>
    intro acc k
    have h := ih (acc ++ [wrr]) k
    show ReadAll.loop Collector.reader ((k + (rest.length + 1)) + 1) _ acc = _
    rw [ReadAll.loop]
    simpa [Collector.reader, Collector.ReadWarning] using h

theorem Collector.run_closed (ops : List Op) : ∀ c : Collector, c.closed = true →
    c.run ops = c := by
  induction ops with
  | nil => intro c _; rfl
  | cons op rest ih =>
    intro c h
    have hs : c.step op = c := by
      cases op <;> simp [Collector.step, Collector.WriteWarning, Collector.ReadWarning,
        Collector.Close, h]
    simp only [Collector.run, List.foldl_cons, hs]
    exact ih c h

theorem Collector.run_open (ops : List Op) : ∀ c : Collector, c.closed = false →
    (∀ op ∈ ops, op.isClose = false) → (c.run ops).closed = false := by
  induction ops with
  | nil => intro c h _; exact h
  | cons op rest ih =>
    intro c h hops
    have hs : (c.step op).closed = false := by
      have hop := hops op (List.mem_cons_self _ _)
      cases op with
      | write wrr => simp [Collector.step, Collector.WriteWarning, h]
      | read =>
        simp only [Collector.step, Collector.ReadWarning, h]
        cases c.queue <;> simp [h]
      | close => simp [Op.isClose] at hop
    simp only [Collector.run, List.foldl_cons]
    exact ih (c.step op) hs (fun o ho => hops o (List.mem_cons_of_mem _ ho))

theorem Collector.run_reads (q : List Warning) :
    Collector.run { queue := q, closed := false } (List.replicate q.length Op.read)
      = NewCollector := by
  induction q with
  | nil => rfl
  | cons wrr rest ih =>
    simpa [Collector.run, List.replicate_succ, Collector.step, Collector.ReadWarning] using ih

theorem Collector.run_writes (wrrs : List Warning) : ∀ q : List Warning,
    Collector.run { queue := q, closed := false } (wrrs.map Op.write)
      = { queue := q ++ wrrs, closed := false } := by
  induction wrrs with
  | nil => intro q; simp [Collector.run]
  | cons wrr rest ih =>
    intro q
    have h := ih (q ++ [wrr])
    simp only [Collector.run] at h
    simp [Collector.run, Collector.step, Collector.WriteWarning, h]

/-! ## The claims on the collector -/

/-- C1: writing the warnings `wrrs` in order to a newly created collector returns no error
from any write, and `ReadAll` on that collector then returns exactly `wrrs`, in order, with
no error; any bound on the reads above the number of warnings is enough. -/
theorem C1_collector_writes_then_readAll (wrrs : List Warning) (k : Nat) :
    (Collector.writeAll NewCollector wrrs).1 = List.replicate wrrs.length none ∧
    ReadAll Collector.reader (wrrs.length + 1 + k) (Collector.writeAll NewCollector wrrs).2
      = some ((wrrs, none), NewCollector) := by
  have hw := Collector.writeAll_open wrrs []
  have hr := ReadAll.loop_collector wrrs [] k
  rw [show NewCollector = ({ queue := [], closed := false } : Collector) from rfl]
  rw [hw]
  refine ⟨rfl, ?_⟩
  rw [Nat.add_comm (wrrs.length + 1) k]
  simpa [ReadAll, NewCollector] using hr

/-- C2: once `Close` has been called on a collector, whatever calls follow, a
`WriteWarning` returns `ErrClosed` and a `ReadWarning` returns a nil warning with
`ErrClosed`; neither changes the collector, whose queue still holds the warnings that were
unread at the close. -/
theorem C2_closed_collector_reports_closed (c : Collector) (ops : List Op) (wrr : Warning) :
    (c.Close.2.run ops).WriteWarning wrr = (some ErrClosed, c.Close.2.run ops) ∧
    (c.Close.2.run ops).ReadWarning = ((Warning.nil, some ErrClosed), c.Close.2.run ops) ∧
    (c.Close.2.run ops).queue = c.queue := by
  have hc : c.Close.2.closed = true := by
    cases hcl : c.closed <;> simp [Collector.Close, hcl]
  have hq : c.Close.2.queue = c.queue := by
    cases hcl : c.closed <;> simp [Collector.Close, hcl]
  rw [Collector.run_closed ops _ hc]
  refine ⟨?_, ?_, hq⟩
  · simp [Collector.WriteWarning, hc]
  · simp [Collector.ReadWarning, hc]

/-- C3: on a newly created collector, after any writes and reads (no `Close` among them),
the first `Close` returns no error, and after it, whatever calls are made in between, a
`Close` returns `ErrClosed`. -/
theorem C3_close_once_then_closed (ops later : List Op)
    (h : ∀ op ∈ ops, op.isClose = false) :
    (NewCollector.run ops).Close.1 = none ∧
    (((NewCollector.run ops).Close.2.run later).Close).1 = some ErrClosed := by
  have ho : (NewCollector.run ops).closed = false := Collector.run_open ops _ rfl h
  have hc : (NewCollector.run ops).Close.2.closed = true := by
    simp [Collector.Close, ho]
  rw [Collector.run_closed later _ hc]
  constructor
  · simp [Collector.Close, ho]
  · simp [Collector.Close, ho]

theorem C3_close_once_then_closed_witness :
    (NewCollector.run [Op.write (New "a"), Op.read, Op.write (New "b")]).Close.1 = none ∧
    (((NewCollector.run [Op.write (New "a"), Op.read, Op.write (New "b")]).Close.2.run
      [Op.close, Op.read]).Close).1 = some ErrClosed :=
  C3_close_once_then_closed [Op.write (New "a"), Op.read, Op.write (New "b")]
    [Op.close, Op.read] (by decide)

/-! ## Lemmas on the scanner -/

theorem scan_stored {ρ : Type} (R : Reader ρ) (s : scanner ρ) (wrr : Warning)
    (r' : ρ) (h₀ : s.err = none) (h₁ : R.ReadWarning s.reader = ((wrr, none), r')) :
    s.Scan R = (true, { reader := r', wrr := wrr, err := none }) := by
  simp [scanner.Scan, h₀, h₁, errorsIs]

theorem scan_exhausted {ρ : Type} (R : Reader ρ) (s : scanner ρ)
    (h₀ : s.err = none) (h₁ : errorsIs (R.ReadWarning s.reader).1.2 (some ioEOF) = true) :
    s.Scan R = (false, { reader := (R.ReadWarning s.reader).2, wrr := .nil, err := none }) := by
  simp [scanner.Scan, h₀, h₁]

theorem scan_failed {ρ : Type} (R : Reader ρ) (s : scanner ρ) (wrr : Warning)
    (e : Error) (r' : ρ) (h₀ : s.err = none)
    (h₁ : R.ReadWarning s.reader = ((wrr, some e), r'))
    (h₂ : errorsIs (some e) (some ioEOF) = false) :
    s.Scan R = (false, { reader := r', wrr := s.wrr, err := some e }) := by
  simp [scanner.Scan, h₀, h₁, h₂]

theorem scan_stuck {ρ : Type} (R : Reader ρ) (s : scanner ρ) (e : Error)
    (h : s.err = some e) : s.Scan R = (false, s) := by
  simp [scanner.Scan, h]

theorem scan_after_stuck {ρ : Type} (R : Reader ρ) (s : scanner ρ) (e : Error)
    (h : s.err = some e) : ∀ k : Nat, scanner.after R k s = s := by
  intro k
  induction k with
  | zero => rfl
  | succ k ih => simp only [scanner.after, scan_stuck R s e h, ih]

theorem scan_observe_stuck {ρ : Type} (R : Reader ρ) (s : scanner ρ) (e : Error)
    (h : s.err = some e) : ∀ k : Nat,
    scanner.observe R k s = List.replicate k (false, s.wrr, some e) := by
  intro k
  induction k with
  | zero => rfl
  | succ k ih =>
    simp only [scanner.observe, scan_stuck R s e h, ih, List.replicate_succ,
      scanner.Warning, scanner.Err, h]

theorem scan_observe_succ {ρ : Type} (R : Reader ρ) (k : Nat) (s : scanner ρ) :
    scanner.observe R (k + 1) s
      = ((s.Scan R).1, (s.Scan R).2.wrr, (s.Scan R).2.err) :: scanner.observe R k (s.Scan R).2 :=
  rfl

theorem scan_observe_yields {ρ : Type} (R : Reader ρ) (wrrs : List Warning) :
    ∀ s : scanner ρ, s.err = none → R.yields s.reader wrrs = true →
    scanner.observe R (wrrs.length + 1) s
      = wrrs.map (fun wrr => (true, wrr, none)) ++ [(false, Warning.nil, none)] := by
  induction wrrs with
  | nil =>
    intro s h₀ hy
    simp only [Reader.yields] at hy
    simp [scanner.observe, scan_exhausted R s h₀ hy, scanner.Warning, scanner.Err]
  | cons wrr rest ih =>
    intro s h₀ hy
    simp only [Reader.yields, Bool.and_eq_true, decide_eq_true_eq] at hy
    have hread : R.ReadWarning s.reader = ((wrr, none), (R.ReadWarning s.reader).2) :=
      Prod.ext hy.1 rfl
    have hscan := scan_stored R s wrr _ h₀ hread
    have hrest := ih { reader := (R.ReadWarning s.reader).2, wrr := wrr, err := none } rfl hy.2
    rw [List.length_cons, scan_observe_succ, hscan]
    simp only [List.map_cons, List.cons_append]
    rw [hrest]

theorem Collector.reader_yields (q : List Warning) :
    Collector.reader.yields { queue := q, closed := false } q = true := by
  induction q with
  | nil => simp [Reader.yields, Collector.reader, Collector.ReadWarning, errorsIs, Error.matches]
  | cons wrr rest ih =>
    simpa [Reader.yields, Collector.reader, Collector.ReadWarning] using ih

/-! ## The claims on the empty collector and on the scanner -/

/-- C4: on an open collector `ReadWarning` with an empty queue returns `io.EOF`, which does
not match `ErrClosed`, and leaves the collector as it was; a newly created collector is open
and empty, and so is one from which every written warning was read; and a scanner over an
open collector returns true once per queued warning, then false with `Err()` nil. -/
theorem C4_open_empty_collector_is_exhausted (c : Collector) (wrrs : List Warning)
    (h : c.closed = false) :
    (c.queue = [] → c.ReadWarning = ((Warning.nil, some ioEOF), c) ∧
      errorsIs c.ReadWarning.1.2 (some ErrClosed) = false) ∧
    (NewCollector.closed = false ∧ NewCollector.queue = []) ∧
    NewCollector.run (wrrs.map Op.write ++ List.replicate wrrs.length Op.read) = NewCollector ∧
    scanner.observe Collector.reader (c.queue.length + 1) (NewScanner c)
      = c.queue.map (fun wrr => (true, wrr, none)) ++ [(false, Warning.nil, none)] := by
  refine ⟨?_, ⟨rfl, rfl⟩, ?_, ?_⟩
  · intro hq
    simp [Collector.ReadWarning, h, hq, errorsIs, Error.matches]
  · have h₁ := Collector.run_writes wrrs []
    have h₂ := Collector.run_reads wrrs
    simp only [List.nil_append] at h₁
    simp only [Collector.run] at h₁ h₂
    simp only [Collector.run, List.foldl_append]
    have h₀ : NewCollector = ({ queue := [], closed := false } : Collector) := rfl
    rw [h₀, h₁, h₂]
    rfl
  · have hy := Collector.reader_yields c.queue
    have hc : c = { queue := c.queue, closed := false } := by
      cases c; simp_all
    rw [← hc] at hy
    exact scan_observe_yields Collector.reader c.queue (NewScanner c) rfl hy

theorem C4_open_empty_collector_is_exhausted_witness :
    (([] : List Warning) = [] →
      NewCollector.ReadWarning = ((Warning.nil, some ioEOF), NewCollector) ∧
      errorsIs NewCollector.ReadWarning.1.2 (some ErrClosed) = false) ∧
    (NewCollector.closed = false ∧ NewCollector.queue = []) ∧
    NewCollector.run ([New "a", New "b"].map Op.write ++ List.replicate 2 Op.read)
      = NewCollector ∧
    scanner.observe Collector.reader 1 (NewScanner NewCollector)
      = [(false, Warning.nil, none)] :=
  C4_open_empty_collector_is_exhausted NewCollector [New "a", New "b"] rfl

/-- C5: over a reader that yields `wrrs` in order without error and then signals
exhaustion, a new scanner returns true from each of its first `wrrs.length` calls of `Scan`,
with `Warning()` the matching element and `Err()` nil, and false from the next call, after
which `Warning()` and `Err()` are nil. -/
theorem C5_scanner_over_finite_reader {ρ : Type} (R : Reader ρ) (r : ρ)
    (wrrs : List Warning) (h : R.yields r wrrs = true) :
    scanner.observe R (wrrs.length + 1) (NewScanner r)
      = wrrs.map (fun wrr => (true, wrr, none)) ++ [(false, Warning.nil, none)] :=
  scan_observe_yields R wrrs (NewScanner r) rfl h

theorem C5_scanner_over_finite_reader_witness :
    scanner.observe mockReader 3
        (NewScanner [(New "test-1", none), (New "test-2", none), (Warning.nil, some ioEOF)])
      = [(true, New "test-1", none), (true, New "test-2", none), (false, Warning.nil, none)] :=
  C5_scanner_over_finite_reader mockReader
    [(New "test-1", none), (New "test-2", none), (Warning.nil, some ioEOF)]
    [New "test-1", New "test-2"] (by decide)

/-- C6: when a scanner with no stored error reads an error `e` that is not the exhaustion
signal, that `Scan` returns false and stores `e`, keeping the current warning; each of the
`k` calls of `Scan` after it returns false with `Err()` still `e` and leaves the scanner,
the state of its reader included, as it was; over a reader that counts its calls the count
stays at one more than before the failing call, so no later call reaches `ReadWarning`. -/
theorem C6_scanner_error_is_sticky {ρ : Type} (R : Reader ρ) (s : scanner ρ)
    (wrr : Warning) (e : Error) (r' : ρ) (k n : Nat)
    (h₀ : s.err = none) (h₁ : R.ReadWarning s.reader = ((wrr, some e), r'))
    (h₂ : errorsIs (some e) (some ioEOF) = false) :
    s.Scan R = (false, { reader := r', wrr := s.wrr, err := some e }) ∧
    scanner.observe R k (s.Scan R).2 = List.replicate k (false, s.wrr, some e) ∧
    scanner.after R k (s.Scan R).2 = (s.Scan R).2 ∧
    (scanner.after R.counted (k + 1)
      { reader := (s.reader, n), wrr := s.wrr, err := none }).reader = (r', n + 1) := by
  have hs := scan_failed R s wrr e r' h₀ h₁ h₂
  refine ⟨hs, ?_, ?_, ?_⟩
  · rw [hs]
    exact scan_observe_stuck R _ e rfl k
  · rw [hs]
    exact scan_after_stuck R _ e rfl k
  · have hc : (R.counted).ReadWarning (s.reader, n) = ((wrr, some e), (r', n + 1)) := by
      simp [Reader.counted, h₁]
    have hsc := scan_failed R.counted
      { reader := (s.reader, n), wrr := s.wrr, err := none } wrr e (r', n + 1) rfl hc h₂
    show (scanner.after R.counted k
      (scanner.Scan R.counted { reader := (s.reader, n), wrr := s.wrr, err := none }).2).reader
        = (r', n + 1)
    rw [hsc, scan_after_stuck R.counted _ e rfl k]

theorem C6_scanner_error_is_sticky_witness :
    (NewScanner [(New "test-3", some (Error.other 1)), (New "test-4", none)]).Scan mockReader
      = (false, { reader := [(New "test-4", none)], wrr := Warning.nil,
                  err := some (Error.other 1) }) ∧
    scanner.observe mockReader 2
        ((NewScanner [(New "test-3", some (Error.other 1)), (New "test-4", none)]).Scan
          mockReader).2
      = List.replicate 2 (false, Warning.nil, some (Error.other 1)) ∧
    scanner.after mockReader 2
        ((NewScanner [(New "test-3", some (Error.other 1)), (New "test-4", none)]).Scan
          mockReader).2
      = ((NewScanner [(New "test-3", some (Error.other 1)), (New "test-4", none)]).Scan
          mockReader).2 ∧
    (scanner.after mockReader.counted (2 + 1)
      { reader := ([(New "test-3", some (Error.other 1)), (New "test-4", none)], 0),
        wrr := Warning.nil, err := none }).reader = ([(New "test-4", none)], 0 + 1) :=
  C6_scanner_error_is_sticky mockReader
    (NewScanner [(New "test-3", some (Error.other 1)), (New "test-4", none)])
    (New "test-3") (Error.other 1) [(New "test-4", none)] 2 0 rfl rfl (by decide)

/-! ## Lemmas on errors and on the loop of `Warn` -/

theorem Error.matches_self (e : Error) : Error.matches e e = true := by
  cases e <;> simp [Error.matches]

theorem Error.matchesAny_of_mem (e : Error) : ∀ es : List Error, e ∈ es →
    Error.matchesAny e es = true := by
  intro es
  induction es with
  | nil => intro h; cases h
  | cons x rest ih =>
    intro h
    rcases List.mem_cons.1 h with rfl | h'
    · simp [Error.matchesAny, Error.matches_self]
    · simp [Error.matchesAny, ih h']

theorem Error.matchesAny_of_matches (e x : Error) : ∀ es : List Error, x ∈ es →
    Error.matches e x = true → Error.matchesAny e es = true := by
  intro es
  induction es with
  | nil => intro h; cases h
  | cons y rest ih =>
    intro h hx
    rcases List.mem_cons.1 h with rfl | h'
    · simp [Error.matchesAny, hx]
    · simp [Error.matchesAny, ih h' hx]

theorem errorsJoin_matches_of_matches (rs : List (Option Error)) (e x : Error)
    (h : some x ∈ rs) (hx : Error.matches e x = true) :
    errorsIs (errorsJoin rs) (some e) = true := by
  have hmem : x ∈ rs.reduceOption := List.reduceOption_mem_iff.2 h
  unfold errorsJoin
  cases hl : rs.reduceOption with
  | nil => rw [hl] at hmem; cases hmem
  | cons y rest =>
    rw [hl] at hmem
    simp [errorsIs, Error.matches, Error.matchesAny_of_matches e x _ hmem hx]

theorem errorsJoin_eq_none_iff (rs : List (Option Error)) :
    errorsJoin rs = none ↔ ∀ r ∈ rs, r = none := by
  unfold errorsJoin
  constructor
  · intro h r hr
    cases r with
    | none => rfl
    | some e =>
      have hmem : e ∈ rs.reduceOption := List.reduceOption_mem_iff.2 hr
      cases hl : rs.reduceOption with
      | nil => rw [hl] at hmem; cases hmem
      | cons x rest => rw [hl] at h; cases h
  · intro h
    cases hl : rs.reduceOption with
    | nil => rfl
    | cons x rest =>
      have hx : x ∈ rs.reduceOption := by rw [hl]; exact List.mem_cons_self _ _
      have := h (some x) (List.reduceOption_mem_iff.1 hx)
      cases this

theorem errorsJoin_eq_join (rs : List (Option Error)) (h : rs.reduceOption ≠ []) :
    errorsJoin rs = some (.join rs.reduceOption) := by
  unfold errorsJoin
  cases hl : rs.reduceOption with
  | nil => exact absurd hl h
  | cons x rest => rfl

theorem errorsJoin_matches (rs : List (Option Error)) (e : Error) (h : some e ∈ rs) :
    errorsIs (errorsJoin rs) (some e) = true := by
  have hmem : e ∈ rs.reduceOption := List.reduceOption_mem_iff.2 h
  have hne : rs.reduceOption ≠ [] := List.ne_nil_of_mem hmem
  rw [errorsJoin_eq_join rs hne]
  simp [errorsIs, Error.matches, Error.matchesAny_of_mem e _ hmem]

theorem reduceOption_map_some (errs : List Error) : (errs.map some).reduceOption = errs := by
  induction errs with
  | nil => rfl
  | cons e rest ih => rw [List.map_cons, List.reduceOption_cons_of_some, ih]

theorem errorsJoin_map_some (rs : List (Option Error)) :
    errorsJoin (rs.reduceOption.map some) = errorsJoin rs := by
  unfold errorsJoin
  rw [reduceOption_map_some]

theorem Warn.loop_eq (β : Behaviour) (writer : Writer) (wrrs : List Warning) :
    ∀ (errs : List Error) (σ : World),
    Warn.loop β writer wrrs errs σ
      = (errs ++ (writer.writeInOrder β wrrs σ).1.reduceOption,
          (writer.writeInOrder β wrrs σ).2) := by
  induction wrrs with
  | nil => intro errs σ; simp [Warn.loop, Writer.writeInOrder]
  | cons wrr rest ih =>
    intro errs σ
    rw [Warn.loop]
    cases hw : writer.WriteWarning β wrr σ with
    | mk r σ' =>
      cases r with
      | none =>
        simp only [ih, Writer.writeInOrder, hw, List.reduceOption_cons_of_none]
      | some err =>
        simp only [ih, Writer.writeInOrder, hw, List.reduceOption_cons_of_some,
          List.append_assoc, List.singleton_append]

theorem Writer.writeInOrder_length (β : Behaviour) (writer : Writer) (wrrs : List Warning) :
    ∀ σ : World, (writer.writeInOrder β wrrs σ).1.length = wrrs.length := by
  induction wrrs with
  | nil => intro σ; rfl
  | cons wrr rest ih => intro σ; simp [Writer.writeInOrder, ih]

theorem Writer.writeInOrder_ext_trace (β : Behaviour) (a : Nat) (wrrs : List Warning) :
    ∀ σ : World, ((Writer.ext a).writeInOrder β wrrs σ).2.trace
      = σ.trace ++ List.zipWith (Event.write a) wrrs ((Writer.ext a).writeInOrder β wrrs σ).1 := by
  induction wrrs with
  | nil => intro σ; simp [Writer.writeInOrder]
  | cons wrr rest ih =>
    intro σ
    simp [Writer.writeInOrder, ih, Writer.WriteWarning]

theorem received_append (a : Nat) (t₁ t₂ : List Event) :
    received a (t₁ ++ t₂) = received a t₁ ++ received a t₂ := by
  induction t₁ with
  | nil => rfl
  | cons ev rest ih =>
    cases ev with
    | write v wrr res =>
      by_cases hv : v = a <;> simp [received, hv, ih]
    | tap g wrr => simp [received, ih]

theorem received_zipWith_write (a : Nat) (wrrs : List Warning) :
    ∀ rs : List (Option Error), rs.length = wrrs.length →
    received a (List.zipWith (Event.write a) wrrs rs) = wrrs := by
  induction wrrs with
  | nil => intro rs _; simp [received]
  | cons wrr rest ih =>
    intro rs hlen
    cases rs with
    | nil => simp at hlen
    | cons r rs' =>
      simp only [List.length_cons, Nat.add_right_cancel_iff] at hlen
      simp [received, ih rs' hlen]

/-! ## The claims on `Warn` and `Attach` -/

/-- C7: on a context with no bound writer `Warn` returns nil and changes nothing: no
writer is called, no collector changes; the background context is such a context, and so
is every context returned by `Detach`. -/
theorem C7_warn_without_writer (β : Behaviour) (ctx ctx' : Context) (wrrs : List Warning)
    (σ : World) (h : getWriter ctx = none) :
    Warn β ctx wrrs σ = (none, σ) ∧
    Warn β Context.background wrrs σ = (none, σ) ∧
    Warn β (Detach ctx') wrrs σ = (none, σ) := by
  have hd : getWriter (Detach ctx') = none := by
    unfold Detach
    cases hg : getWriter ctx' with
    | none => simpa using hg
    | some w => rfl
  refine ⟨?_, rfl, ?_⟩
  · simp [Warn, h]
  · simp [Warn, hd]

theorem C7_warn_without_writer_witness :
    Warn (mockBehaviour fun _ => none) (Context.derived Context.background 3)
        [New "test-warning"] World.init = (none, World.init) ∧
    Warn (mockBehaviour fun _ => none) Context.background [New "test-warning"] World.init
      = (none, World.init) ∧
    Warn (mockBehaviour fun _ => none) (Detach (Attach Context.background (Writer.ext 0)))
        [New "test-warning"] World.init = (none, World.init) :=
  C7_warn_without_writer (mockBehaviour fun _ => none) (Context.derived Context.background 3)
    (Attach Context.background (Writer.ext 0)) [New "test-warning"] World.init rfl

/-- C8: on a context bound to `writer`, `Warn` leaves the world as calling
`writer.WriteWarning` once per warning, in argument order, leaves it, a failed call not
stopping the later ones; when `writer` is a caller-supplied writer the trace grows by
exactly one call per warning, with the warnings in argument order. -/
theorem C8_warn_writes_each_in_order (β : Behaviour) (ctx : Context) (writer : Writer)
    (wrrs : List Warning) (σ : World) (h : getWriter ctx = some writer) :
    (Warn β ctx wrrs σ).2 = (writer.writeInOrder β wrrs σ).2 ∧
    (writer.writeInOrder β wrrs σ).1.length = wrrs.length ∧
    (∀ a : Nat, writer = Writer.ext a →
      (Warn β ctx wrrs σ).2.trace
        = σ.trace ++ List.zipWith (Event.write a) wrrs (writer.writeInOrder β wrrs σ).1 ∧
      received a (Warn β ctx wrrs σ).2.trace = received a σ.trace ++ wrrs) := by
  have hw : (Warn β ctx wrrs σ).2 = (writer.writeInOrder β wrrs σ).2 := by
    simp [Warn, h, Warn.loop_eq]
  have hl := Writer.writeInOrder_length β writer wrrs σ
  refine ⟨hw, hl, ?_⟩
  intro a ha
  subst ha
  have ht := Writer.writeInOrder_ext_trace β a wrrs σ
  rw [hw]
  refine ⟨ht, ?_⟩
  rw [ht, received_append, received_zipWith_write a wrrs _ hl]

theorem C8_warn_writes_each_in_order_witness :
    (Warn (mockBehaviour fun _ => some (Error.other 1))
        (Attach Context.background (Writer.ext 0)) [New "a", New "b"] World.init).2
      = ((Writer.ext 0).writeInOrder (mockBehaviour fun _ => some (Error.other 1))
          [New "a", New "b"] World.init).2 ∧
    ((Writer.ext 0).writeInOrder (mockBehaviour fun _ => some (Error.other 1))
        [New "a", New "b"] World.init).1.length = [New "a", New "b"].length ∧
    (∀ a : Nat, Writer.ext 0 = Writer.ext a →
      (Warn (mockBehaviour fun _ => some (Error.other 1))
          (Attach Context.background (Writer.ext 0)) [New "a", New "b"] World.init).2.trace
        = World.init.trace ++ List.zipWith (Event.write a) [New "a", New "b"]
            ((Writer.ext 0).writeInOrder (mockBehaviour fun _ => some (Error.other 1))
              [New "a", New "b"] World.init).1 ∧
      received a (Warn (mockBehaviour fun _ => some (Error.other 1))
          (Attach Context.background (Writer.ext 0)) [New "a", New "b"] World.init).2.trace
        = received a World.init.trace ++ [New "a", New "b"]) :=
  C8_warn_writes_each_in_order (mockBehaviour fun _ => some (Error.other 1))
    (Attach Context.background (Writer.ext 0)) (Writer.ext 0) [New "a", New "b"] World.init rfl

/-- C9: on a context bound to `writer`, `Warn` returns nil exactly when every call of
`writer.WriteWarning` returned nil; its result is `errors.Join` of the results of the calls
in write order, so when some call failed it is one joined error holding exactly the errors
of the failed calls, in order, and `errors.Is` finds each of them in it. -/
theorem C9_warn_joins_the_write_errors (β : Behaviour) (ctx : Context) (writer : Writer)
    (wrrs : List Warning) (σ : World) (h : getWriter ctx = some writer) :
    ((Warn β ctx wrrs σ).1 = none ↔ ∀ r ∈ (writer.writeInOrder β wrrs σ).1, r = none) ∧
    (Warn β ctx wrrs σ).1 = errorsJoin (writer.writeInOrder β wrrs σ).1 ∧
    ((writer.writeInOrder β wrrs σ).1.reduceOption ≠ [] →
      (Warn β ctx wrrs σ).1
        = some (Error.join (writer.writeInOrder β wrrs σ).1.reduceOption)) ∧
    (∀ e : Error, some e ∈ (writer.writeInOrder β wrrs σ).1 →
      errorsIs (Warn β ctx wrrs σ).1 (some e) = true) := by
  have hw : (Warn β ctx wrrs σ).1 = errorsJoin (writer.writeInOrder β wrrs σ).1 := by
    simp [Warn, h, Warn.loop_eq, errorsJoin_map_some]
  rw [hw]
  refine ⟨errorsJoin_eq_none_iff _, rfl, errorsJoin_eq_join _, ?_⟩
  intro e he
  exact errorsJoin_matches _ e he

theorem C9_warn_joins_the_write_errors_witness :
    ((Warn (fun _ _ wrr => if wrr = New "b" then none else some (Error.other wrr.Warn.length))
          (Attach Context.background (Writer.ext 0)) [New "a", New "b", New "cc"]
          World.init).1 = none ↔
      ∀ r ∈ ((Writer.ext 0).writeInOrder
          (fun _ _ wrr => if wrr = New "b" then none else some (Error.other wrr.Warn.length))
          [New "a", New "b", New "cc"] World.init).1, r = none) ∧
    (Warn (fun _ _ wrr => if wrr = New "b" then none else some (Error.other wrr.Warn.length))
        (Attach Context.background (Writer.ext 0)) [New "a", New "b", New "cc"]
        World.init).1 = some (Error.join [Error.other 1, Error.other 2]) :=
  have h := C9_warn_joins_the_write_errors
    (fun _ _ wrr => if wrr = New "b" then none else some (Error.other wrr.Warn.length))
    (Attach Context.background (Writer.ext 0)) (Writer.ext 0) [New "a", New "b", New "cc"]
    World.init rfl
  ⟨h.1, h.2.2.1 (by decide)⟩

/-- C10: when `ctx` has no bound writer, the writer bound in `Attach(ctx, w)` is `w`; when
`ctx` is bound to `v`, the writer bound in `Attach(ctx, w)` calls `v.WriteWarning` and then
`w.WriteWarning` with the same warning, each once and whatever the other returns, and
`errors.Is` finds the error of a failing one in its result and in the result of `Warn`;
`Warn` on `ctx` itself still calls `v` alone. For caller-supplied writers the traces are
spelled out. -/
theorem C10_attach_fans_out (β : Behaviour) (ctx : Context) (v w : Writer) (x : Warning)
    (σ : World) :
    (getWriter ctx = none → getWriter (Attach ctx w) = some w) ∧
    (getWriter ctx = some v →
      getWriter (Attach ctx w) = some (NewMultiWriter [v, w]) ∧
      (NewMultiWriter [v, w]).WriteWarning β x σ
        = (errorsJoin [(v.WriteWarning β x σ).1,
              (w.WriteWarning β x (v.WriteWarning β x σ).2).1],
            (w.WriteWarning β x (v.WriteWarning β x σ).2).2) ∧
      (Warn β (Attach ctx w) [x] σ).2 = (w.WriteWarning β x (v.WriteWarning β x σ).2).2 ∧
      (∀ e : Error, ((v.WriteWarning β x σ).1 = some e ∨
          (w.WriteWarning β x (v.WriteWarning β x σ).2).1 = some e) →
        errorsIs ((NewMultiWriter [v, w]).WriteWarning β x σ).1 (some e) = true ∧
        errorsIs (Warn β (Attach ctx w) [x] σ).1 (some e) = true) ∧
      (Warn β ctx [x] σ).2 = (v.WriteWarning β x σ).2 ∧
      (∀ a b : Nat, v = Writer.ext a → w = Writer.ext b →
        (Warn β (Attach ctx w) [x] σ).2.trace
          = σ.trace ++ [Event.write a x (β σ.trace a x),
              Event.write b x (β (σ.trace ++ [Event.write a x (β σ.trace a x)]) b x)] ∧
        (Warn β ctx [x] σ).2.trace = σ.trace ++ [Event.write a x (β σ.trace a x)])) := by
  constructor
  · intro h
    simp [Attach, h, setWriter, getWriter]
  · intro h
    have hA : getWriter (Attach ctx w) = some (NewMultiWriter [v, w]) := by
      simp [Attach, h, setWriter, getWriter]
    have hM : (NewMultiWriter [v, w]).WriteWarning β x σ
        = (errorsJoin [(v.WriteWarning β x σ).1,
              (w.WriteWarning β x (v.WriteWarning β x σ).2).1],
            (w.WriteWarning β x (v.WriteWarning β x σ).2).2) := by
      simp [NewMultiWriter, Writer.WriteWarning, Writer.writeEach]
    have hW2 : (Warn β (Attach ctx w) [x] σ).2
        = (w.WriteWarning β x (v.WriteWarning β x σ).2).2 := by
      simp [Warn, hA, Warn.loop_eq, Writer.writeInOrder, hM]
    have hW1 : (Warn β (Attach ctx w) [x] σ).1
        = errorsJoin [((NewMultiWriter [v, w]).WriteWarning β x σ).1] := by
      simp [Warn, hA, Warn.loop_eq, Writer.writeInOrder, errorsJoin_map_some]
    have hV : (Warn β ctx [x] σ).2 = (v.WriteWarning β x σ).2 := by
      simp [Warn, h, Warn.loop_eq, Writer.writeInOrder]
    refine ⟨hA, hM, hW2, ?_, hV, ?_⟩
    · intro e he
      have hm : errorsIs ((NewMultiWriter [v, w]).WriteWarning β x σ).1 (some e) = true := by
        rw [hM]
        apply errorsJoin_matches
        rcases he with he | he
        · simp [he]
        · simp [he]
      refine ⟨hm, ?_⟩
      rw [hW1]
      cases hr : ((NewMultiWriter [v, w]).WriteWarning β x σ).1 with
      | none => rw [hr] at hm; simp [errorsIs] at hm
      | some j =>
        rw [hr] at hm
        exact errorsJoin_matches_of_matches _ e j (by simp) (by simpa [errorsIs] using hm)
    · intro a b ha hb
      subst ha
      subst hb
      rw [hW2, hV]
      simp [Writer.WriteWarning]

theorem C10_attach_fans_out_witness :
    getWriter (Attach (Attach Context.background (Writer.ext 0)) (Writer.ext 1))
      = some (NewMultiWriter [Writer.ext 0, Writer.ext 1]) ∧
    (Warn (mockBehaviour fun w => if w = 0 then some (Error.other 5) else none)
        (Attach (Attach Context.background (Writer.ext 0)) (Writer.ext 1)) [New "test-2"]
        World.init).2.trace
      = [Event.write 0 (New "test-2") (some (Error.other 5)),
         Event.write 1 (New "test-2") none] ∧
    errorsIs (Warn (mockBehaviour fun w => if w = 0 then some (Error.other 5) else none)
        (Attach (Attach Context.background (Writer.ext 0)) (Writer.ext 1)) [New "test-2"]
        World.init).1 (some (Error.other 5)) = true :=
  have h := (C10_attach_fans_out
    (mockBehaviour fun w => if w = 0 then some (Error.other 5) else none)
    (Attach Context.background (Writer.ext 0)) (Writer.ext 0) (Writer.ext 1) (New "test-2")
    World.init).2 rfl
  ⟨h.1, (h.2.2.2.2.2 0 1 rfl rfl).1, (h.2.2.2.1 (Error.other 5) (Or.inl rfl)).2⟩

/-! ## Lemmas on writing through the decorators -/

theorem Warn_eq_writeInOrder (β : Behaviour) (ctx : Context) (writer : Writer)
    (wrrs : List Warning) (σ : World) (h : getWriter ctx = some writer) :
    Warn β ctx wrrs σ
      = (errorsJoin (writer.writeInOrder β wrrs σ).1, (writer.writeInOrder β wrrs σ).2) := by
  simp [Warn, h, Warn.loop_eq, errorsJoin_map_some]

theorem errorsJoin_congr (rs rs' : List (Option Error))
    (h : rs.reduceOption = rs'.reduceOption) : errorsJoin rs = errorsJoin rs' := by
  unfold errorsJoin
  rw [h]

theorem received_writeInOrder_ext (β : Behaviour) (a : Nat) (wrrs : List Warning)
    (σ : World) :
    received a ((Writer.ext a).writeInOrder β wrrs σ).2.trace = received a σ.trace ++ wrrs := by
  rw [Writer.writeInOrder_ext_trace, received_append,
    received_zipWith_write a wrrs _ (Writer.writeInOrder_length β _ wrrs σ)]

theorem Writer.writeEach_length (β : Behaviour) (x : Warning) (children : List Writer) :
    ∀ σ : World, (Writer.writeEach β children x σ).1.length = children.length := by
  induction children with
  | nil => intro σ; simp [Writer.writeEach]
  | cons c rest ih => intro σ; simp [Writer.writeEach, ih]

theorem Writer.writeEach_ext_trace (β : Behaviour) (x : Warning) (ids : List Nat) :
    ∀ σ : World, (Writer.writeEach β (ids.map Writer.ext) x σ).2.trace
      = σ.trace ++ List.zipWith (fun a r => Event.write a x r) ids
          (Writer.writeEach β (ids.map Writer.ext) x σ).1 := by
  induction ids with
  | nil => intro σ; simp [Writer.writeEach]
  | cons a rest ih =>
    intro σ
    simp [Writer.writeEach, ih, Writer.WriteWarning]

theorem Writer.writeInOrder_map (β : Behaviour) (w : Writer) (f : Warning → Warning)
    (wrrs : List Warning) : ∀ σ : World,
    (Writer.mapWriter w f).writeInOrder β wrrs σ = w.writeInOrder β (wrrs.map f) σ := by
  induction wrrs with
  | nil => intro σ; rfl
  | cons x rest ih =>
    intro σ
    simp [Writer.writeInOrder, Writer.WriteWarning, ih]

theorem Writer.writeInOrder_filter (β : Behaviour) (w : Writer) (p : Warning → Bool)
    (wrrs : List Warning) : ∀ σ : World,
    ((Writer.filterWriter w p).writeInOrder β wrrs σ).1.reduceOption
      = (w.writeInOrder β (wrrs.filter p) σ).1.reduceOption ∧
    ((Writer.filterWriter w p).writeInOrder β wrrs σ).2
      = (w.writeInOrder β (wrrs.filter p) σ).2 := by
  induction wrrs with
  | nil => intro σ; exact ⟨rfl, rfl⟩
  | cons x rest ih =>
    intro σ
    cases hp : p x with
    | false =>
      have h := ih σ
      simp [Writer.writeInOrder, Writer.WriteWarning, hp, List.reduceOption_cons_of_none, h]
    | true =>
      have h := ih (w.WriteWarning β x σ).2
      cases hr : (w.WriteWarning β x σ).1 with
      | none =>
        simp [Writer.writeInOrder, Writer.WriteWarning, hp, hr,
          List.reduceOption_cons_of_none, h]
      | some e =>
        simp [Writer.writeInOrder, Writer.WriteWarning, hp, hr,
          List.reduceOption_cons_of_some, h]

theorem Writer.writeInOrder_tap_ext_trace (β : Behaviour) (g a : Nat)
    (wrrs : List Warning) : ∀ σ : World,
    ((Writer.tapWriter (Writer.ext a) g).writeInOrder β wrrs σ).2.trace
      = σ.trace ++ tapEvents g a wrrs
          ((Writer.tapWriter (Writer.ext a) g).writeInOrder β wrrs σ).1 := by
  induction wrrs with
  | nil => intro σ; simp [Writer.writeInOrder, tapEvents]
  | cons x rest ih =>
    intro σ
    simp [Writer.writeInOrder, ih, Writer.WriteWarning, tapEvents]

theorem tapped_append (g : Nat) (t₁ t₂ : List Event) :
    tapped g (t₁ ++ t₂) = tapped g t₁ ++ tapped g t₂ := by
  induction t₁ with
  | nil => rfl
  | cons ev rest ih =>
    cases ev with
    | write v wrr res => simp [tapped, ih]
    | tap f wrr => by_cases hf : f = g <;> simp [tapped, hf, ih]

theorem tapped_tapEvents (g a : Nat) (wrrs : List Warning) :
    ∀ rs : List (Option Error), rs.length = wrrs.length →
    tapped g (tapEvents g a wrrs rs) = wrrs := by
  induction wrrs with
  | nil => intro rs _; cases rs <;> simp [tapEvents, tapped]
  | cons x rest ih =>
    intro rs hlen
    cases rs with
    | nil => simp at hlen
    | cons r rs' =>
      simp only [List.length_cons, Nat.add_right_cancel_iff] at hlen
      simp [tapEvents, tapped, ih rs' hlen]

theorem received_tapEvents (g a : Nat) (wrrs : List Warning) :
    ∀ rs : List (Option Error), rs.length = wrrs.length →
    received a (tapEvents g a wrrs rs) = wrrs := by
  induction wrrs with
  | nil => intro rs _; cases rs <;> simp [tapEvents, received]
  | cons x rest ih =>
    intro rs hlen
    cases rs with
    | nil => simp at hlen
    | cons r rs' =>
      simp only [List.length_cons, Nat.add_right_cancel_iff] at hlen
      simp [tapEvents, received, ih rs' hlen]

/-! ## The claims on `Detach`, the multi-writer, `Map`, `Filter` and `Tap` -/

/-- C11: on a context bound to a writer, `Detach` installs a nil binding, so `Warn` on the
detached context returns nil and leaves the world as it was: nothing is written to the
writer that was bound; on a context with no bound writer `Detach` returns the context
itself. -/
theorem C11_detach_stops_warnings (β : Behaviour) (ctx ctx₀ : Context) (w : Writer)
    (wrrs : List Warning) (σ : World)
    (h : getWriter ctx = some w) (h₀ : getWriter ctx₀ = none) :
    Detach ctx = setWriter ctx none ∧
    getWriter (Detach ctx) = none ∧
    Warn β (Detach ctx) wrrs σ = (none, σ) ∧
    Detach ctx₀ = ctx₀ := by
  have hd : Detach ctx = setWriter ctx none := by simp [Detach, h]
  have hg : getWriter (Detach ctx) = none := by rw [hd]; rfl
  refine ⟨hd, hg, ?_, ?_⟩
  · simp [Warn, hg]
  · simp [Detach, h₀]

theorem C11_detach_stops_warnings_witness :
    Detach (Attach Context.background (Writer.ext 0))
      = setWriter (Attach Context.background (Writer.ext 0)) none ∧
    getWriter (Detach (Attach Context.background (Writer.ext 0))) = none ∧
    Warn (mockBehaviour fun _ => none) (Detach (Attach Context.background (Writer.ext 0)))
        [New "test-warning"] World.init = (none, World.init) ∧
    Detach Context.background = Context.background :=
  C11_detach_stops_warnings (mockBehaviour fun _ => none)
    (Attach Context.background (Writer.ext 0)) Context.background (Writer.ext 0)
    [New "test-warning"] World.init rfl rfl

/-- C12: `WriteWarning` of a multi-writer calls `WriteWarning` of every child, in
registration order, each once and whatever the earlier ones returned; it returns nil
exactly when every child returned nil, and else a joined error in which `errors.Is` finds
the error of every failing child. For caller-supplied children the trace grows by exactly
one call per child, in order. -/
theorem C12_multiwriter_calls_every_child (β : Behaviour) (children : List Writer)
    (x : Warning) (σ : World) :
    (NewMultiWriter children).WriteWarning β x σ
      = (errorsJoin (Writer.writeEach β children x σ).1,
          (Writer.writeEach β children x σ).2) ∧
    (Writer.writeEach β children x σ).1.length = children.length ∧
    (((NewMultiWriter children).WriteWarning β x σ).1 = none ↔
      ∀ r ∈ (Writer.writeEach β children x σ).1, r = none) ∧
    (∀ e : Error, some e ∈ (Writer.writeEach β children x σ).1 →
      errorsIs ((NewMultiWriter children).WriteWarning β x σ).1 (some e) = true) ∧
    (∀ ids : List Nat, children = ids.map Writer.ext →
      ((NewMultiWriter children).WriteWarning β x σ).2.trace
        = σ.trace ++ List.zipWith (fun a r => Event.write a x r) ids
            (Writer.writeEach β children x σ).1) := by
  have hM : (NewMultiWriter children).WriteWarning β x σ
      = (errorsJoin (Writer.writeEach β children x σ).1,
          (Writer.writeEach β children x σ).2) := by
    simp [NewMultiWriter, Writer.WriteWarning]
  rw [hM]
  refine ⟨rfl, Writer.writeEach_length β x children σ, errorsJoin_eq_none_iff _, ?_, ?_⟩
  · intro e he
    exact errorsJoin_matches _ e he
  · intro ids hids
    subst hids
    exact Writer.writeEach_ext_trace β x ids σ

theorem C12_multiwriter_calls_every_child_witness :
    ((NewMultiWriter [Writer.ext 0, Writer.ext 1, Writer.ext 2]).WriteWarning
        (mockBehaviour fun w => if w = 0 then none else some (Error.other w)) (New "test")
        World.init).2.trace
      = [Event.write 0 (New "test") none, Event.write 1 (New "test") (some (Error.other 1)),
         Event.write 2 (New "test") (some (Error.other 2))] ∧
    errorsIs ((NewMultiWriter [Writer.ext 0, Writer.ext 1, Writer.ext 2]).WriteWarning
        (mockBehaviour fun w => if w = 0 then none else some (Error.other w)) (New "test")
        World.init).1 (some (Error.other 2)) = true :=
  have h := C12_multiwriter_calls_every_child
    (mockBehaviour fun w => if w = 0 then none else some (Error.other w))
    [Writer.ext 0, Writer.ext 1, Writer.ext 2] (New "test") World.init
  ⟨h.2.2.2.2 [0, 1, 2] rfl, h.2.2.2.1 (Error.other 2) (by decide)⟩

/-- C13: on a context bound to `w`, `Map(ctx, f)` binds a writer whose `WriteWarning(x)` is
`w.WriteWarning(f(x))`, results included; so writing `wrrs` through it is writing
`wrrs.map f` to `w`, and a caller-supplied `w` is called with exactly the transforms, in
write order. -/
theorem C13_map_transforms_every_warning (β : Behaviour) (ctx : Context) (w : Writer)
    (f : Warning → Warning) (wrrs : List Warning) (σ : World)
    (h : getWriter ctx = some w) :
    getWriter (Map ctx f) = some (Writer.mapWriter w f) ∧
    (∀ (x : Warning) (σ' : World),
      (Writer.mapWriter w f).WriteWarning β x σ' = w.WriteWarning β (f x) σ') ∧
    (Writer.mapWriter w f).writeInOrder β wrrs σ = w.writeInOrder β (wrrs.map f) σ ∧
    Warn β (Map ctx f) wrrs σ = Warn β ctx (wrrs.map f) σ ∧
    (∀ a : Nat, w = Writer.ext a →
      received a (Warn β (Map ctx f) wrrs σ).2.trace = received a σ.trace ++ wrrs.map f) := by
  have hM : getWriter (Map ctx f) = some (Writer.mapWriter w f) := by
    simp [Map, h, setWriter, getWriter]
  have hW : Warn β (Map ctx f) wrrs σ = Warn β ctx (wrrs.map f) σ := by
    rw [Warn_eq_writeInOrder β _ _ wrrs σ hM, Warn_eq_writeInOrder β _ _ (wrrs.map f) σ h,
      Writer.writeInOrder_map]
  refine ⟨hM, ?_, Writer.writeInOrder_map β w f wrrs σ, hW, ?_⟩
  · intro x σ'
    simp [Writer.WriteWarning]
  · intro a ha
    subst ha
    rw [hW, Warn_eq_writeInOrder β _ _ (wrrs.map f) σ h]
    exact received_writeInOrder_ext β a (wrrs.map f) σ

theorem C13_map_transforms_every_warning_witness :
    received 0 (Warn (mockBehaviour fun _ => none)
        (Map (Attach Context.background (Writer.ext 0)) fun x => New (x.Warn ++ "!"))
        [New "a", New "b"] World.init).2.trace
      = received 0 World.init.trace ++ [New "a", New "b"].map fun x => New (x.Warn ++ "!") :=
  (C13_map_transforms_every_warning (mockBehaviour fun _ => none)
    (Attach Context.background (Writer.ext 0)) (Writer.ext 0) (fun x => New (x.Warn ++ "!"))
    [New "a", New "b"] World.init rfl).2.2.2.2 0 rfl

/-- C14: on a context bound to `w`, `Filter(ctx, p)` binds a writer whose `WriteWarning(x)`
is `w.WriteWarning(x)`, result included, when `p(x)` holds, and else returns nil and
changes nothing; so writing `wrrs` through it is writing to `w` the warnings on which `p`
holds, in order and unmodified. -/
theorem C14_filter_forwards_what_passes (β : Behaviour) (ctx : Context) (w : Writer)
    (p : Warning → Bool) (wrrs : List Warning) (σ : World)
    (h : getWriter ctx = some w) :
    getWriter (Filter ctx p) = some (Writer.filterWriter w p) ∧
    (∀ (x : Warning) (σ' : World), p x = true →
      (Writer.filterWriter w p).WriteWarning β x σ' = w.WriteWarning β x σ') ∧
    (∀ (x : Warning) (σ' : World), p x = false →
      (Writer.filterWriter w p).WriteWarning β x σ' = (none, σ')) ∧
    Warn β (Filter ctx p) wrrs σ = Warn β ctx (wrrs.filter p) σ ∧
    (∀ a : Nat, w = Writer.ext a →
      received a (Warn β (Filter ctx p) wrrs σ).2.trace
        = received a σ.trace ++ wrrs.filter p) := by
  have hF : getWriter (Filter ctx p) = some (Writer.filterWriter w p) := by
    simp [Filter, h, setWriter, getWriter]
  have hf := Writer.writeInOrder_filter β w p wrrs σ
  have hW : Warn β (Filter ctx p) wrrs σ = Warn β ctx (wrrs.filter p) σ := by
    rw [Warn_eq_writeInOrder β _ _ wrrs σ hF, Warn_eq_writeInOrder β _ _ (wrrs.filter p) σ h,
      errorsJoin_congr _ _ hf.1, hf.2]
  refine ⟨hF, ?_, ?_, hW, ?_⟩
  · intro x σ' hp
    simp [Writer.WriteWarning, hp]
  · intro x σ' hp
    simp [Writer.WriteWarning, hp]
  · intro a ha
    subst ha
    rw [hW, Warn_eq_writeInOrder β _ _ (wrrs.filter p) σ h]
    exact received_writeInOrder_ext β a (wrrs.filter p) σ

theorem C14_filter_forwards_what_passes_witness :
    received 0 (Warn (mockBehaviour fun _ => none)
        (Filter (Attach Context.background (Writer.ext 0)) fun x => decide (x ≠ New "ignore"))
        [New "a", New "ignore", New "b"] World.init).2.trace
      = received 0 World.init.trace
          ++ [New "a", New "ignore", New "b"].filter fun x => decide (x ≠ New "ignore") :=
  (C14_filter_forwards_what_passes (mockBehaviour fun _ => none)
    (Attach Context.background (Writer.ext 0)) (Writer.ext 0)
    (fun x => decide (x ≠ New "ignore"))
    [New "a", New "ignore", New "b"] World.init rfl).2.2.2.2 0 rfl

/-- C15: on a context bound to `w`, `Tap(ctx, g)` binds a writer whose `WriteWarning(x)`
calls the observer `g` on `x` and then is `w.WriteWarning(x)`, result included, whatever
`w` returns; over a caller-supplied `w` the trace of writing `wrrs` is, for each warning in
order, the call of `g` then the call of `w`, so `g` and `w` are each called with exactly
`wrrs`. -/
theorem C15_tap_observes_then_forwards (β : Behaviour) (ctx : Context) (w : Writer)
    (g : Nat) (wrrs : List Warning) (σ : World) (h : getWriter ctx = some w) :
    getWriter (Tap ctx g) = some (Writer.tapWriter w g) ∧
    (∀ (x : Warning) (σ' : World),
      (Writer.tapWriter w g).WriteWarning β x σ'
        = w.WriteWarning β x { σ' with trace := σ'.trace ++ [Event.tap g x] }) ∧
    (∀ a : Nat, w = Writer.ext a →
      (Warn β (Tap ctx g) wrrs σ).2.trace
        = σ.trace ++ tapEvents g a wrrs ((Writer.tapWriter w g).writeInOrder β wrrs σ).1 ∧
      ((Writer.tapWriter w g).writeInOrder β wrrs σ).1.length = wrrs.length ∧
      tapped g (Warn β (Tap ctx g) wrrs σ).2.trace = tapped g σ.trace ++ wrrs ∧
      received a (Warn β (Tap ctx g) wrrs σ).2.trace = received a σ.trace ++ wrrs) := by
  have hT : getWriter (Tap ctx g) = some (Writer.tapWriter w g) := by
    simp [Tap, h, setWriter, getWriter]
  refine ⟨hT, ?_, ?_⟩
  · intro x σ'
    simp [Writer.WriteWarning]
  · intro a ha
    subst ha
    have hl := Writer.writeInOrder_length β (Writer.tapWriter (Writer.ext a) g) wrrs σ
    have ht := Writer.writeInOrder_tap_ext_trace β g a wrrs σ
    rw [Warn_eq_writeInOrder β _ _ wrrs σ hT]
    refine ⟨ht, hl, ?_, ?_⟩
    · show tapped g ((Writer.tapWriter (Writer.ext a) g).writeInOrder β wrrs σ).2.trace = _
      rw [ht, tapped_append, tapped_tapEvents g a wrrs _ hl]
    · show received a ((Writer.tapWriter (Writer.ext a) g).writeInOrder β wrrs σ).2.trace = _
      rw [ht, received_append, received_tapEvents g a wrrs _ hl]

theorem C15_tap_observes_then_forwards_witness :
    (Warn (mockBehaviour fun _ => some (Error.other 1))
        (Tap (Attach Context.background (Writer.ext 0)) 7) [New "a", New "b"]
        World.init).2.trace
      = World.init.trace ++ tapEvents 7 0 [New "a", New "b"]
          ((Writer.tapWriter (Writer.ext 0) 7).writeInOrder
            (mockBehaviour fun _ => some (Error.other 1)) [New "a", New "b"] World.init).1 ∧
    tapped 7 (Warn (mockBehaviour fun _ => some (Error.other 1))
        (Tap (Attach Context.background (Writer.ext 0)) 7) [New "a", New "b"]
        World.init).2.trace = tapped 7 World.init.trace ++ [New "a", New "b"] :=
  have h := (C15_tap_observes_then_forwards (mockBehaviour fun _ => some (Error.other 1))
    (Attach Context.background (Writer.ext 0)) (Writer.ext 0) 7 [New "a", New "b"]
    World.init rfl).2.2 0 rfl
  ⟨h.1, h.2.2.1⟩

/-! ## Lemmas on `Reduce` -/

theorem Writer.writeInOrder_collector (β : Behaviour) (addr : Nat) (wrrs : List Warning) :
    ∀ (q : List Warning) (σ : World), σ.heap addr = { queue := q, closed := false } →
    (Writer.collector addr).writeInOrder β wrrs σ
      = (List.replicate wrrs.length none,
          { σ with heap := Function.update σ.heap addr { queue := q ++ wrrs, closed := false } }) := by
  induction wrrs with
  | nil =>
    intro q σ hq
    simp [Writer.writeInOrder, ← hq]
  | cons x rest ih =>
    intro q σ hq
    have hstep : (Writer.collector addr).WriteWarning β x σ
        = (none, { σ with heap := (Function.update σ.heap addr
            { queue := q ++ [x], closed := false }) }) := by
      simp [Writer.WriteWarning, Collector.WriteWarning, hq]
    have h := ih (q ++ [x])
      { σ with heap := Function.update σ.heap addr { queue := q ++ [x], closed := false } }
      (by simp)
    simp only [Writer.writeInOrder, hstep, h]
    simp [List.replicate_succ]

theorem errorsJoin_replicate_none (n : Nat) : errorsJoin (List.replicate n none) = none := by
  rw [errorsJoin_eq_none_iff]
  intro r hr
  exact (List.mem_replicate.1 hr).2

theorem Reduce_bound {τ : Type} (β : Behaviour) (zero : τ) (conv : τ → Warning)
    (ctx : Context) (w : Writer) (f : τ → Warning → τ) (σ : World)
    (h : getWriter ctx = some w) :
    Reduce β zero conv ctx f σ
      = ((setWriter ctx (some (Writer.collector σ.fresh)),
            Reduce.flush β zero conv f w σ.fresh),
          { heap := Function.update σ.heap σ.fresh NewCollector, fresh := σ.fresh + 1,
            trace := σ.trace }) := by
  simp [Reduce, h]

theorem Reduce_then_Warn {τ : Type} (β : Behaviour) (zero : τ) (conv : τ → Warning)
    (ctx : Context) (w : Writer) (f : τ → Warning → τ) (wrrs : List Warning) (σ : World)
    (h : getWriter ctx = some w) :
    Warn β (Reduce β zero conv ctx f σ).1.1 wrrs (Reduce β zero conv ctx f σ).2
      = (none, { heap := Function.update σ.heap σ.fresh { queue := wrrs, closed := false },
                 fresh := σ.fresh + 1, trace := σ.trace }) := by
  rw [Reduce_bound β zero conv ctx w f σ h]
  have hg : getWriter (setWriter ctx (some (Writer.collector σ.fresh)))
      = some (Writer.collector σ.fresh) := rfl
  rw [Warn_eq_writeInOrder β _ _ wrrs _ hg]
  have hc := Writer.writeInOrder_collector β σ.fresh wrrs []
    { heap := Function.update σ.heap σ.fresh NewCollector, fresh := σ.fresh + 1,
      trace := σ.trace } (by simp [NewCollector])
  simp only [] at hc ⊢
  rw [hc]
  simp [errorsJoin_replicate_none]

theorem Reduce_flush_collected {τ : Type} (β : Behaviour) (zero : τ) (conv : τ → Warning)
    (w : Writer) (f : τ → Warning → τ) (wrrs : List Warning) (addr k : Nat) (σ : World)
    (hq : σ.heap addr = { queue := wrrs, closed := false }) :
    Reduce.flush β zero conv f w addr (wrrs.length + 1 + k) σ
      = some (World.closeCollector
          (if wrrs.length = 0 then { σ with heap := Function.update σ.heap addr NewCollector }
           else (w.WriteWarning β (conv (wrrs.foldl f zero))
              { σ with heap := Function.update σ.heap addr NewCollector }).2) addr) := by
  have hr := ReadAll.loop_collector wrrs [] k
  rw [Nat.add_comm (wrrs.length + 1) k]
  unfold Reduce.flush ReadAll
  rw [hq, hr]
  by_cases hl : wrrs.length = 0 <;> simp [hl]

/-! ## The claims on `Reduce` and on the operators without a writer -/

/-- C16: on a context bound to `w`, the warnings `wrrs` written through the context of
`Reduce` return no error and only fill the collector `Reduce` made, the trace staying as
it was, so `w` receives nothing before `flush`; `flush` then returns, and when `wrrs` is empty it only closes the collector of
`Reduce`, writing nothing; when `wrrs` is non-empty it calls `w.WriteWarning` once, with the
left fold of the function over `wrrs` from the zero value, and closes that collector; over a
caller-supplied `w` the trace grows by exactly that one call. -/
theorem C16_reduce_folds_on_flush {τ : Type} (β : Behaviour) (zero : τ)
    (conv : τ → Warning) (ctx : Context) (w : Writer) (f : τ → Warning → τ)
    (wrrs : List Warning) (σ : World) (k : Nat) (h : getWriter ctx = some w) :
    (Warn β (Reduce β zero conv ctx f σ).1.1 wrrs (Reduce β zero conv ctx f σ).2).1 = none ∧
    (Warn β (Reduce β zero conv ctx f σ).1.1 wrrs (Reduce β zero conv ctx f σ).2).2
      = { heap := Function.update σ.heap σ.fresh { queue := wrrs, closed := false },
          fresh := σ.fresh + 1, trace := σ.trace } ∧
    (wrrs = [] →
      (Reduce β zero conv ctx f σ).1.2 (wrrs.length + 1 + k)
          (Warn β (Reduce β zero conv ctx f σ).1.1 wrrs (Reduce β zero conv ctx f σ).2).2
        = some (World.closeCollector (Reduce β zero conv ctx f σ).2 σ.fresh) ∧
      (World.closeCollector (Reduce β zero conv ctx f σ).2 σ.fresh).trace = σ.trace) ∧
    (wrrs ≠ [] →
      (Reduce β zero conv ctx f σ).1.2 (wrrs.length + 1 + k)
          (Warn β (Reduce β zero conv ctx f σ).1.1 wrrs (Reduce β zero conv ctx f σ).2).2
        = some (World.closeCollector
            (w.WriteWarning β (conv (wrrs.foldl f zero)) (Reduce β zero conv ctx f σ).2).2
            σ.fresh) ∧
      ∀ a : Nat, w = Writer.ext a →
        (World.closeCollector
            (w.WriteWarning β (conv (wrrs.foldl f zero)) (Reduce β zero conv ctx f σ).2).2
            σ.fresh).trace
          = σ.trace ++ [Event.write a (conv (wrrs.foldl f zero))
              (β σ.trace a (conv (wrrs.foldl f zero)))]) := by
  have hW := Reduce_then_Warn β zero conv ctx w f wrrs σ h
  have hR := Reduce_bound β zero conv ctx w f σ h
  have hF := Reduce_flush_collected β zero conv w f wrrs σ.fresh k
    { heap := Function.update σ.heap σ.fresh { queue := wrrs, closed := false },
      fresh := σ.fresh + 1, trace := σ.trace } (by simp)
  simp only [Function.update_idem] at hF
  rw [hW]
  rw [hR]
  refine ⟨rfl, rfl, ?_, ?_⟩
  · intro he
    have hl : wrrs.length = 0 := by simp [he]
    refine ⟨?_, rfl⟩
    dsimp only
    rw [hF, if_pos hl]
  · intro hne
    have hl : ¬ wrrs.length = 0 := by
      simpa [List.length_eq_zero] using hne
    refine ⟨?_, ?_⟩
    · dsimp only
      rw [hF, if_neg hl]
    · intro a ha
      subst ha
      simp [World.closeCollector, Writer.WriteWarning]

theorem C16_reduce_folds_on_flush_witness :
    (Reduce (mockBehaviour fun _ => none) "" New
          (Attach Context.background (Writer.ext 0))
          (fun acc wrr => if acc = "" then wrr.Warn else acc ++ ", " ++ wrr.Warn)
          World.init).1.2 ([New "this", New "that"].length + 1 + 0)
        (Warn (mockBehaviour fun _ => none)
          (Reduce (mockBehaviour fun _ => none) "" New
            (Attach Context.background (Writer.ext 0))
            (fun acc wrr => if acc = "" then wrr.Warn else acc ++ ", " ++ wrr.Warn)
            World.init).1.1 [New "this", New "that"]
          (Reduce (mockBehaviour fun _ => none) "" New
            (Attach Context.background (Writer.ext 0))
            (fun acc wrr => if acc = "" then wrr.Warn else acc ++ ", " ++ wrr.Warn)
            World.init).2).2
      = some (World.closeCollector
          ((Writer.ext 0).WriteWarning (mockBehaviour fun _ => none)
            (New ([New "this", New "that"].foldl
              (fun acc wrr => if acc = "" then wrr.Warn else acc ++ ", " ++ wrr.Warn) ""))
            (Reduce (mockBehaviour fun _ => none) "" New
              (Attach Context.background (Writer.ext 0))
              (fun acc wrr => if acc = "" then wrr.Warn else acc ++ ", " ++ wrr.Warn)
              World.init).2).2
          World.init.fresh) :=
  ((C16_reduce_folds_on_flush (mockBehaviour fun _ => none) "" New
    (Attach Context.background (Writer.ext 0)) (Writer.ext 0)
    (fun acc wrr => if acc = "" then wrr.Warn else acc ++ ", " ++ wrr.Warn)
    [New "this", New "that"] World.init 0 rfl).2.2.2 (by decide)).1

/-- C17: on a context with no bound writer, `Map`, `Filter` and `Tap` return the context
itself, and `Reduce` returns the context itself with a `flush` that changes nothing, and
makes no collector; `Warn` on each returned context returns nil and leaves the world as it
was, so no supplied function is called. -/
theorem C17_operators_are_inert_without_writer {τ : Type} (β : Behaviour) (zero : τ)
    (conv : τ → Warning) (ctx : Context) (f : Warning → Warning) (p : Warning → Bool)
    (g : Nat) (rf : τ → Warning → τ) (wrrs : List Warning) (σ σ' : World) (fuel : Nat)
    (h : getWriter ctx = none) :
    Map ctx f = ctx ∧ Filter ctx p = ctx ∧ Tap ctx g = ctx ∧
    (Reduce β zero conv ctx rf σ).1.1 = ctx ∧
    (Reduce β zero conv ctx rf σ).2 = σ ∧
    (Reduce β zero conv ctx rf σ).1.2 fuel σ' = some σ' ∧
    Warn β (Map ctx f) wrrs σ = (none, σ) ∧
    Warn β (Filter ctx p) wrrs σ = (none, σ) ∧
    Warn β (Tap ctx g) wrrs σ = (none, σ) ∧
    Warn β (Reduce β zero conv ctx rf σ).1.1 wrrs σ = (none, σ) := by
  have hM : Map ctx f = ctx := by simp [Map, h]
  have hF : Filter ctx p = ctx := by simp [Filter, h]
  have hT : Tap ctx g = ctx := by simp [Tap, h]
  have hR : Reduce β zero conv ctx rf σ = ((ctx, fun _ σ' => some σ'), σ) := by
    simp [Reduce, h]
  have hW : Warn β ctx wrrs σ = (none, σ) := by simp [Warn, h]
  rw [hM, hF, hT, hR]
  exact ⟨rfl, rfl, rfl, rfl, rfl, rfl, hW, hW, hW, hW⟩

theorem C17_operators_are_inert_without_writer_witness :
    Map Context.background id = Context.background ∧
    Filter Context.background (fun _ => true) = Context.background ∧
    Tap Context.background 7 = Context.background ∧
    (Reduce (mockBehaviour fun _ => none) "" New Context.background
      (fun acc _ => acc) World.init).1.1 = Context.background ∧
    (Reduce (mockBehaviour fun _ => none) "" New Context.background
      (fun acc _ => acc) World.init).2 = World.init ∧
    (Reduce (mockBehaviour fun _ => none) "" New Context.background
      (fun acc _ => acc) World.init).1.2 1 World.init = some World.init ∧
    Warn (mockBehaviour fun _ => none) (Map Context.background id) [New "test"] World.init
      = (none, World.init) ∧
    Warn (mockBehaviour fun _ => none) (Filter Context.background fun _ => true)
      [New "test"] World.init = (none, World.init) ∧
    Warn (mockBehaviour fun _ => none) (Tap Context.background 7) [New "test"] World.init
      = (none, World.init) ∧
    Warn (mockBehaviour fun _ => none)
      (Reduce (mockBehaviour fun _ => none) "" New Context.background
        (fun acc _ => acc) World.init).1.1 [New "test"] World.init = (none, World.init) :=
  C17_operators_are_inert_without_writer (mockBehaviour fun _ => none) "" New
    Context.background id (fun _ => true) 7 (fun acc _ => acc) [New "test"] World.init
    World.init 1 rfl

/-! ## Lemmas on `ReadAll` and on `Warnf` -/

theorem ReadAll.loop_yields {ρ : Type} (R : Reader ρ) (wrrs : List Warning) :
    ∀ (r : ρ) (acc : List Warning) (k : Nat), R.yields r wrrs = true →
    ∃ r' : ρ, ReadAll.loop R (k + (wrrs.length + 1)) r acc = some ((acc ++ wrrs, none), r') := by
  induction wrrs with
  | nil =>
    intro r acc k hy
    simp only [Reader.yields] at hy
    refine ⟨(R.ReadWarning r).2, ?_⟩
    show ReadAll.loop R (k + 1) r acc = _
    rw [ReadAll.loop]
    rcases hread : R.ReadWarning r with ⟨⟨wrr, err⟩, r'⟩
    rw [hread] at hy
    cases err with
    | none => simp [errorsIs] at hy
    | some e =>
      simp only [] at hy
      simp [hy]
  | cons x rest ih =>
    intro r acc k hy
    simp only [Reader.yields, Bool.and_eq_true, decide_eq_true_eq] at hy
    obtain ⟨r', hr'⟩ := ih (R.ReadWarning r).2 (acc ++ [x]) k hy.2
    refine ⟨r', ?_⟩
    show ReadAll.loop R ((k + (rest.length + 1)) + 1) r acc = _
    rw [ReadAll.loop]
    rcases hread : R.ReadWarning r with ⟨⟨wrr, err⟩, r₁⟩
    rw [hread] at hy hr'
    simp only [Prod.mk.injEq] at hy
    obtain ⟨⟨rfl, rfl⟩, _⟩ := hy
    simpa using hr'

theorem Warnf.replace_eq_map (args : List Any) :
    Warnf.replace args = args.map fun arg =>
      match arg with
      | .warning .nil => arg
      | .warning wrr => .str wrr.Warn
      | _ => arg := by
  induction args with
  | nil => rfl
  | cons arg rest ih =>
    rw [Warnf.replace, ih]
    cases arg with
    | warning wrr => cases wrr <;> simp [Any.asWarning]
    | str s => simp [Any.asWarning]
    | other n => simp [Any.asWarning]

/-! ## The claims on `ReadAll` and on `Warnf` -/

/-- C18: over a reader that yields `wrrs` in order without error and then signals
exhaustion, `ReadAll` returns, for any bound on the reads above the number of warnings,
exactly `wrrs` in order with a nil error; for no warnings the result is empty. -/
theorem C18_readAll_returns_what_was_yielded {ρ : Type} (R : Reader ρ) (r : ρ)
    (wrrs : List Warning) (k : Nat) (h : R.yields r wrrs = true) :
    ∃ r' : ρ, ReadAll R (wrrs.length + 1 + k) r = some ((wrrs, none), r') := by
  obtain ⟨r', hr'⟩ := ReadAll.loop_yields R wrrs r [] k h
  refine ⟨r', ?_⟩
  rw [Nat.add_comm (wrrs.length + 1) k]
  simpa [ReadAll] using hr'

theorem C18_readAll_returns_what_was_yielded_witness :
    ∃ r' : List (Warning × Option Error),
      ReadAll mockReader ([New "test-1", New "test-2"].length + 1 + 0)
          [(New "test-1", none), (New "test-2", none), (Warning.nil, some ioEOF)]
        = some (([New "test-1", New "test-2"], none), r') :=
  C18_readAll_returns_what_was_yielded mockReader
    [(New "test-1", none), (New "test-2", none), (Warning.nil, some ioEOF)]
    [New "test-1", New "test-2"] 0 (by decide)

/-- C20: `Warnf(ctx, format, args)` is `Warn(ctx, New(s))` for `s` the string obtained by
formatting `format` over `args` after every argument that is a `Warning` was replaced by
what its `Warn()` returns; `Warn()` of the warning written is `s`; on a context bound to
`w` it is one call of `w.WriteWarning` with that warning, and over a caller-supplied `w` the
trace grows by exactly that one call. -/
theorem C20_warnf_writes_one_formatted_warning (Sprintf : String → List Any → String)
    (β : Behaviour) (ctx : Context) (format : String) (args : List Any) (σ : World) :
    Warnf Sprintf β ctx format args σ
      = Warn β ctx [New (Warnf.text Sprintf format args)] σ ∧
    (New (Warnf.text Sprintf format args)).Warn = Warnf.text Sprintf format args ∧
    (∀ w : Writer, getWriter ctx = some w →
      Warnf Sprintf β ctx format args σ
        = (errorsJoin [(w.WriteWarning β (New (Warnf.text Sprintf format args)) σ).1],
            (w.WriteWarning β (New (Warnf.text Sprintf format args)) σ).2)) ∧
    (∀ a : Nat, getWriter ctx = some (Writer.ext a) →
      (Warnf Sprintf β ctx format args σ).2.trace
        = σ.trace ++ [Event.write a (New (Warnf.text Sprintf format args))
            (β σ.trace a (New (Warnf.text Sprintf format args)))]) := by
  have hW : Warnf Sprintf β ctx format args σ
      = Warn β ctx [New (Warnf.text Sprintf format args)] σ := by
    simp only [Warnf, Warnf.text, Warnf.replace_eq_map]
  rw [hW]
  refine ⟨rfl, rfl, ?_, ?_⟩
  · intro w hw
    rw [Warn_eq_writeInOrder β ctx w _ σ hw]
    rfl
  · intro a ha
    rw [Warn_eq_writeInOrder β ctx _ _ σ ha]
    simp [Writer.writeInOrder, Writer.WriteWarning]

theorem C20_warnf_writes_one_formatted_warning_witness :
    (Warnf (fun format _ => format) (mockBehaviour fun _ => none)
        (Attach Context.background (Writer.ext 0)) "test-warning"
        [Any.warning (New "sub-warning")] World.init).2.trace
      = World.init.trace ++ [Event.write 0
          (New (Warnf.text (fun format _ => format) "test-warning"
            [Any.warning (New "sub-warning")]))
          ((mockBehaviour fun _ => none) World.init.trace 0
            (New (Warnf.text (fun format _ => format) "test-warning"
              [Any.warning (New "sub-warning")])))] :=
  (C20_warnf_writes_one_formatted_warning (fun format _ => format)
    (mockBehaviour fun _ => none) (Attach Context.background (Writer.ext 0))
    "test-warning" [Any.warning (New "sub-warning")] World.init).2.2.2 0 rfl

/-! ## Lemmas on `Reduce` after `flush` -/

theorem World.update_heap_self (σ : World) (addr : Nat) :
    ({ σ with heap := Function.update σ.heap addr (σ.heap addr) } : World) = σ := by
  cases σ
  simp

theorem Collector.Close_closed (c : Collector) : c.Close.2.closed = true := by
  cases hc : c.closed <;> simp [Collector.Close, hc]

theorem Collector.Close_of_closed (c : Collector) (h : c.closed = true) : c.Close.2 = c := by
  simp [Collector.Close, h]

theorem World.closeCollector_closed (σ : World) (addr : Nat) :
    ((σ.closeCollector addr).heap addr).closed = true := by
  simp [World.closeCollector, Collector.Close_closed]

theorem Reduce_flush_closes {τ : Type} (β : Behaviour) (zero : τ) (conv : τ → Warning)
    (w : Writer) (f : τ → Warning → τ) (addr fuel : Nat) (σ σ₁ : World)
    (h : Reduce.flush β zero conv f w addr fuel σ = some σ₁) :
    (σ₁.heap addr).closed = true := by
  unfold Reduce.flush at h
  cases hr : ReadAll Collector.reader fuel (σ.heap addr) with
  | none => rw [hr] at h; cases h
  | some res =>
    rcases res with ⟨⟨wrrs, err⟩, c'⟩
    rw [hr] at h
    simp only [] at h
    split at h
    · cases h
      exact World.closeCollector_closed _ addr
    · cases h
      exact World.closeCollector_closed _ addr

theorem Reduce_flush_of_closed {τ : Type} (β : Behaviour) (zero : τ) (conv : τ → Warning)
    (w : Writer) (f : τ → Warning → τ) (addr fuel : Nat) (σ : World)
    (h : (σ.heap addr).closed = true) :
    Reduce.flush β zero conv f w addr (fuel + 1) σ = some σ := by
  have hr : ReadAll Collector.reader (fuel + 1) (σ.heap addr)
      = some (([], some ErrClosed), σ.heap addr) := by
    simp [ReadAll, ReadAll.loop, Collector.reader, Collector.ReadWarning, h, errorsIs,
      Error.matches]
  unfold Reduce.flush
  rw [hr]
  simp [World.closeCollector, Collector.Close_of_closed _ h, World.update_heap_self]

theorem Writer.writeInOrder_collector_closed (β : Behaviour) (addr : Nat)
    (wrrs : List Warning) (σ : World) (h : (σ.heap addr).closed = true) :
    (Writer.collector addr).writeInOrder β wrrs σ
      = (List.replicate wrrs.length (some ErrClosed), σ) := by
  have hstep : ∀ x : Warning, (Writer.collector addr).WriteWarning β x σ
      = (some ErrClosed, σ) := by
    intro x
    simp [Writer.WriteWarning, Collector.WriteWarning, h, World.update_heap_self]
  induction wrrs with
  | nil => rfl
  | cons x rest ih =>
    simp [Writer.writeInOrder, hstep, ih, List.replicate_succ]

theorem Warn_closed_collector (β : Behaviour) (ctx' : Context) (addr : Nat)
    (wrrs : List Warning) (σ : World) (hg : getWriter ctx' = some (Writer.collector addr))
    (h : (σ.heap addr).closed = true) :
    Warn β ctx' wrrs σ = (errorsJoin (List.replicate wrrs.length (some ErrClosed)), σ) := by
  rw [Warn_eq_writeInOrder β ctx' _ wrrs σ hg, Writer.writeInOrder_collector_closed β addr wrrs σ h]

theorem ReduceCall.run_of_closed {τ : Type} (β : Behaviour) (zero : τ) (conv : τ → Warning)
    (ctx' : Context) (w : Writer) (f : τ → Warning → τ) (addr : Nat) (σ : World)
    (hg : getWriter ctx' = some (Writer.collector addr))
    (h : (σ.heap addr).closed = true) (calls : List ReduceCall) :
    ReduceCall.run β ctx' (Reduce.flush β zero conv f w addr) calls σ = some σ := by
  induction calls with
  | nil => rfl
  | cons call rest ih =>
    cases call with
    | flush fuel =>
      simp only [ReduceCall.run, Reduce_flush_of_closed β zero conv w f addr fuel σ h, ih]
    | warn wrrs =>
      simp only [ReduceCall.run, Warn_closed_collector β ctx' addr wrrs σ hg h, ih]

/-! ## The claim on `Reduce` after `flush` -/

/-- C21, as stated, fails for a `Warn` of no warnings: after `Reduce` on a context bound to
a caller-supplied writer, one warning written and `flush` called, `Warn` with no warnings on
the context of `Reduce` returns nil, which does not match `ErrClosed`. -/
theorem C21_warn_of_nothing_after_flush_returns_nil :
    ((Reduce (mockBehaviour fun _ => none) "" New (Attach Context.background (Writer.ext 0))
          (fun acc wrr => acc ++ wrr.Warn) World.init).1.2 2
        (Warn (mockBehaviour fun _ => none)
          (Reduce (mockBehaviour fun _ => none) "" New
            (Attach Context.background (Writer.ext 0))
            (fun acc wrr => acc ++ wrr.Warn) World.init).1.1 [New "this"]
          (Reduce (mockBehaviour fun _ => none) "" New
            (Attach Context.background (Writer.ext 0))
            (fun acc wrr => acc ++ wrr.Warn) World.init).2).2).map
      (fun σ₁ => ((Warn (mockBehaviour fun _ => none)
          (Reduce (mockBehaviour fun _ => none) "" New
            (Attach Context.background (Writer.ext 0))
            (fun acc wrr => acc ++ wrr.Warn) World.init).1.1 [] σ₁).1,
        errorsIs (Warn (mockBehaviour fun _ => none)
          (Reduce (mockBehaviour fun _ => none) "" New
            (Attach Context.background (Writer.ext 0))
            (fun acc wrr => acc ++ wrr.Warn) World.init).1.1 [] σ₁).1 (some ErrClosed)))
      = some (none, false) := by
  decide

/-- C21, amended: on a context bound to `w`, once the `flush` of `Reduce` has returned, any
sequence of later calls of `flush` and of `Warn` on the context of `Reduce` leaves the world
as that first `flush` left it, so `w` receives nothing more; each later `flush` returns
having changed nothing; a later `Warn` returns the join of one `ErrClosed` per warning,
which matches `ErrClosed` when there is at least one warning and is nil when there is
none. -/
theorem C21_reduce_is_finished_after_flush {τ : Type} (β : Behaviour) (zero : τ)
    (conv : τ → Warning) (ctx : Context) (w : Writer) (f : τ → Warning → τ)
    (σ σ' σ₁ : World) (fuel fuel' : Nat) (calls : List ReduceCall) (wrrs : List Warning)
    (h : getWriter ctx = some w)
    (hflush : (Reduce β zero conv ctx f σ).1.2 fuel σ' = some σ₁) :
    ReduceCall.run β (Reduce β zero conv ctx f σ).1.1 (Reduce β zero conv ctx f σ).1.2
        calls σ₁ = some σ₁ ∧
    (Reduce β zero conv ctx f σ).1.2 (fuel' + 1) σ₁ = some σ₁ ∧
    Warn β (Reduce β zero conv ctx f σ).1.1 wrrs σ₁
      = (errorsJoin (List.replicate wrrs.length (some ErrClosed)), σ₁) ∧
    (wrrs ≠ [] →
      errorsIs (Warn β (Reduce β zero conv ctx f σ).1.1 wrrs σ₁).1 (some ErrClosed) = true) ∧
    (wrrs = [] → (Warn β (Reduce β zero conv ctx f σ).1.1 wrrs σ₁).1 = none) := by
  have hR := Reduce_bound β zero conv ctx w f σ h
  rw [hR] at hflush ⊢
  have hg : getWriter (setWriter ctx (some (Writer.collector σ.fresh)))
      = some (Writer.collector σ.fresh) := rfl
  have hc : (σ₁.heap σ.fresh).closed = true :=
    Reduce_flush_closes β zero conv w f σ.fresh fuel σ' σ₁ hflush
  have hW := Warn_closed_collector β _ σ.fresh wrrs σ₁ hg hc
  refine ⟨?_, ?_, hW, ?_, ?_⟩
  · exact ReduceCall.run_of_closed β zero conv _ w f σ.fresh σ₁ hg hc calls
  · exact Reduce_flush_of_closed β zero conv w f σ.fresh fuel' σ₁ hc
  · intro hne
    dsimp only at hW ⊢
    rw [hW]
    apply errorsJoin_matches
    cases wrrs with
    | nil => exact absurd rfl hne
    | cons x rest => simp [List.replicate_succ]
  · intro he
    dsimp only at hW ⊢
    rw [hW, he]
    rfl

theorem C21_reduce_is_finished_after_flush_witness :
    ReduceCall.run (mockBehaviour fun _ => none)
        (Reduce (mockBehaviour fun _ => none) "" New
          (Attach Context.background (Writer.ext 0))
          (fun acc wrr => acc ++ wrr.Warn) World.init).1.1
        (Reduce (mockBehaviour fun _ => none) "" New
          (Attach Context.background (Writer.ext 0))
          (fun acc wrr => acc ++ wrr.Warn) World.init).1.2
        [ReduceCall.warn [New "late"], ReduceCall.flush 3, ReduceCall.flush 0]
        (World.closeCollector ((Writer.ext 0).WriteWarning (mockBehaviour fun _ => none)
          (New "this")
          { heap := Function.update
              (Function.update World.init.heap 0 { queue := [New "this"], closed := false })
              0 NewCollector,
            fresh := 1, trace := [] }).2 0)
      = some (World.closeCollector ((Writer.ext 0).WriteWarning (mockBehaviour fun _ => none)
          (New "this")
          { heap := Function.update
              (Function.update World.init.heap 0 { queue := [New "this"], closed := false })
              0 NewCollector,
            fresh := 1, trace := [] }).2 0) ∧
    errorsIs (Warn (mockBehaviour fun _ => none)
        (Reduce (mockBehaviour fun _ => none) "" New
          (Attach Context.background (Writer.ext 0))
          (fun acc wrr => acc ++ wrr.Warn) World.init).1.1 [New "late"]
        (World.closeCollector ((Writer.ext 0).WriteWarning (mockBehaviour fun _ => none)
          (New "this")
          { heap := Function.update
              (Function.update World.init.heap 0 { queue := [New "this"], closed := false })
              0 NewCollector,
            fresh := 1, trace := [] }).2 0)).1 (some ErrClosed) = true :=
  have h := C21_reduce_is_finished_after_flush (mockBehaviour fun _ => none) "" New
    (Attach Context.background (Writer.ext 0)) (Writer.ext 0)
    (fun acc wrr => acc ++ wrr.Warn) World.init
    { heap := Function.update World.init.heap 0 { queue := [New "this"], closed := false },
      fresh := 1, trace := [] }
    (World.closeCollector ((Writer.ext 0).WriteWarning (mockBehaviour fun _ => none)
      (New "this")
      { heap := Function.update
          (Function.update World.init.heap 0 { queue := [New "this"], closed := false })
          0 NewCollector,
        fresh := 1, trace := [] }).2 0)
    2 0 [ReduceCall.warn [New "late"], ReduceCall.flush 3, ReduceCall.flush 0] [New "late"]
    rfl rfl
  ⟨h.1, h.2.2.2.1 (by decide)⟩

/-! ## Lemmas on the order of the operators -/

theorem received_zipWith_write_ne (a b : Nat) (hab : b ≠ a) (wrrs : List Warning) :
    ∀ rs : List (Option Error), received a (List.zipWith (Event.write b) wrrs rs) = [] := by
  induction wrrs with
  | nil => intro rs; simp [received]
  | cons x rest ih =>
    intro rs
    cases rs with
    | nil => simp [received]
    | cons r rs' => simp [received, hab, ih rs']

theorem scan_after_stuck_wrr {ρ : Type} (R : Reader ρ) (s : scanner ρ) (e : Error)
    (h : s.err = some e) (k : Nat) : (scanner.after R k s).wrr = s.wrr := by
  rw [scan_after_stuck R s e h k]

/-! ## The claims on the stored warning, on `Attach` after `Detach` and on the order of
the operators -/

/-- C22: after a `Scan` that read the warning `w` without error, `Warning()` is `w`; when
the next `ReadWarning` returns an error that is not the exhaustion signal, the next `Scan`
returns false and `Warning()` is still `w`, also after `k` more calls of `Scan`; when the
next `ReadWarning` signals exhaustion, the next `Scan` returns false and `Warning()` is
nil. -/
theorem C22_failed_scan_keeps_the_warning {ρ : Type} (R : Reader ρ) (s : scanner ρ)
    (w w' : Warning) (err : Option Error) (r₁ r₂ : ρ) (k : Nat)
    (h₀ : s.err = none) (h₁ : R.ReadWarning s.reader = ((w, none), r₁))
    (h₂ : R.ReadWarning r₁ = ((w', err), r₂)) :
    (s.Scan R).1 = true ∧ (s.Scan R).2.Warning = w ∧
    (err ≠ none → errorsIs err (some ioEOF) = false →
      ((s.Scan R).2.Scan R).1 = false ∧
      ((s.Scan R).2.Scan R).2.Warning = w ∧
      ((s.Scan R).2.Scan R).2.Err = err ∧
      (scanner.after R k ((s.Scan R).2.Scan R).2).Warning = w) ∧
    (errorsIs err (some ioEOF) = true →
      ((s.Scan R).2.Scan R).1 = false ∧
      ((s.Scan R).2.Scan R).2.Warning = Warning.nil ∧
      ((s.Scan R).2.Scan R).2.Err = none) := by
  have hs := scan_stored R s w r₁ h₀ h₁
  rw [hs]
  refine ⟨rfl, rfl, ?_, ?_⟩
  · intro hne hnot
    cases err with
    | none => exact absurd rfl hne
    | some e =>
      have hf := scan_failed R { reader := r₁, wrr := w, err := none } w' e r₂ rfl h₂ hnot
      dsimp only at hf ⊢
      rw [hf]
      refine ⟨rfl, rfl, rfl, ?_⟩
      exact scan_after_stuck_wrr R _ e rfl k
  · intro heof
    have hread : errorsIs (R.ReadWarning r₁).1.2 (some ioEOF) = true := by
      rw [h₂]; exact heof
    have he := scan_exhausted R { reader := r₁, wrr := w, err := none } rfl hread
    dsimp only at he ⊢
    rw [he]
    exact ⟨rfl, rfl, rfl⟩

theorem C22_failed_scan_keeps_the_warning_witness :
    ((NewScanner [(New "test-1", none), (Warning.nil, some (Error.other 1))]).Scan
        mockReader).1 = true ∧
    ((NewScanner [(New "test-1", none), (Warning.nil, some (Error.other 1))]).Scan
        mockReader).2.Warning = New "test-1" ∧
    (((NewScanner [(New "test-1", none), (Warning.nil, some (Error.other 1))]).Scan
        mockReader).2.Scan mockReader).1 = false ∧
    (((NewScanner [(New "test-1", none), (Warning.nil, some (Error.other 1))]).Scan
        mockReader).2.Scan mockReader).2.Warning = New "test-1" :=
  have h := C22_failed_scan_keeps_the_warning mockReader
    (NewScanner [(New "test-1", none), (Warning.nil, some (Error.other 1))])
    (New "test-1") Warning.nil (some (Error.other 1))
    [(Warning.nil, some (Error.other 1))] [] 0 rfl rfl rfl
  ⟨h.1, h.2.1, (h.2.2.1 (by decide) (by decide)).1, (h.2.2.1 (by decide) (by decide)).2.1⟩

/-- C23: on a context bound to `v`, the writer bound in `Attach(Detach(ctx), w)` is `w`
itself and no multi-writer over `v`: `Warn` through it is one `w.WriteWarning` per warning,
and when `v` and `w` are two caller-supplied writers `v` is called with nothing and `w`
with exactly the warnings. -/
theorem C23_attach_after_detach_binds_the_new_writer (β : Behaviour) (ctx : Context)
    (v w : Writer) (wrrs : List Warning) (σ : World) (h : getWriter ctx = some v) :
    getWriter (Attach (Detach ctx) w) = some w ∧
    Warn β (Attach (Detach ctx) w) wrrs σ
      = (errorsJoin (w.writeInOrder β wrrs σ).1, (w.writeInOrder β wrrs σ).2) ∧
    (∀ a b : Nat, v = Writer.ext a → w = Writer.ext b → b ≠ a →
      received a (Warn β (Attach (Detach ctx) w) wrrs σ).2.trace = received a σ.trace ∧
      received b (Warn β (Attach (Detach ctx) w) wrrs σ).2.trace
        = received b σ.trace ++ wrrs) := by
  have hd : getWriter (Detach ctx) = none := by
    simp [Detach, h, setWriter, getWriter]
  have hA : getWriter (Attach (Detach ctx) w) = some w := by
    simp [Attach, hd, setWriter, getWriter]
  have hW := Warn_eq_writeInOrder β _ w wrrs σ hA
  refine ⟨hA, hW, ?_⟩
  intro a b _ hb hab
  subst hb
  rw [hW]
  refine ⟨?_, received_writeInOrder_ext β b wrrs σ⟩
  show received a ((Writer.ext b).writeInOrder β wrrs σ).2.trace = _
  rw [Writer.writeInOrder_ext_trace, received_append, received_zipWith_write_ne a b hab]
  simp

theorem C23_attach_after_detach_binds_the_new_writer_witness :
    getWriter (Attach (Detach (Attach Context.background (Writer.ext 0))) (Writer.ext 1))
      = some (Writer.ext 1) ∧
    received 0 (Warn (mockBehaviour fun _ => none)
        (Attach (Detach (Attach Context.background (Writer.ext 0))) (Writer.ext 1))
        [New "a", New "b"] World.init).2.trace = received 0 World.init.trace ∧
    received 1 (Warn (mockBehaviour fun _ => none)
        (Attach (Detach (Attach Context.background (Writer.ext 0))) (Writer.ext 1))
        [New "a", New "b"] World.init).2.trace
      = received 1 World.init.trace ++ [New "a", New "b"] :=
  have h := C23_attach_after_detach_binds_the_new_writer (mockBehaviour fun _ => none)
    (Attach Context.background (Writer.ext 0)) (Writer.ext 0) (Writer.ext 1)
    [New "a", New "b"] World.init rfl
  ⟨h.1, (h.2.2 0 1 rfl rfl (by decide)).1, (h.2.2 0 1 rfl rfl (by decide)).2⟩

/-- C24: on a context bound to `w`, a warning `x` written through `Filter(Map(ctx, f), p)`
is `w.WriteWarning(f(x))` when `p(x)` holds and nothing otherwise; written through
`Map(Filter(ctx, p), f)` it is `w.WriteWarning(f(x))` when `p(f(x))` holds and nothing
otherwise; written through `Attach(Map(ctx, f), u)` it is `w.WriteWarning(f(x))` followed
by `u.WriteWarning(x)`. For caller-supplied `w` and `u` the trace is spelled out. -/
theorem C24_later_operators_run_first (β : Behaviour) (ctx : Context) (w u : Writer)
    (f : Warning → Warning) (p : Warning → Bool) (x : Warning) (σ : World)
    (h : getWriter ctx = some w) :
    (getWriter (Filter (Map ctx f) p)
        = some (Writer.filterWriter (Writer.mapWriter w f) p) ∧
      (Writer.filterWriter (Writer.mapWriter w f) p).WriteWarning β x σ
        = if p x then w.WriteWarning β (f x) σ else (none, σ)) ∧
    (getWriter (Map (Filter ctx p) f)
        = some (Writer.mapWriter (Writer.filterWriter w p) f) ∧
      (Writer.mapWriter (Writer.filterWriter w p) f).WriteWarning β x σ
        = if p (f x) then w.WriteWarning β (f x) σ else (none, σ)) ∧
    (getWriter (Attach (Map ctx f) u)
        = some (NewMultiWriter [Writer.mapWriter w f, u]) ∧
      (NewMultiWriter [Writer.mapWriter w f, u]).WriteWarning β x σ
        = (errorsJoin [(w.WriteWarning β (f x) σ).1,
              (u.WriteWarning β x (w.WriteWarning β (f x) σ).2).1],
            (u.WriteWarning β x (w.WriteWarning β (f x) σ).2).2)) ∧
    (∀ a b : Nat, w = Writer.ext a → u = Writer.ext b →
      (Warn β (Filter (Map ctx f) p) [x] σ).2.trace
        = (if p x then σ.trace ++ [Event.write a (f x) (β σ.trace a (f x))] else σ.trace) ∧
      (Warn β (Map (Filter ctx p) f) [x] σ).2.trace
        = (if p (f x) then σ.trace ++ [Event.write a (f x) (β σ.trace a (f x))]
            else σ.trace) ∧
      (Warn β (Attach (Map ctx f) u) [x] σ).2.trace
        = σ.trace ++ [Event.write a (f x) (β σ.trace a (f x)),
            Event.write b x (β (σ.trace ++ [Event.write a (f x) (β σ.trace a (f x))]) b x)]) := by
  have hM : getWriter (Map ctx f) = some (Writer.mapWriter w f) := by
    simp [Map, h, setWriter, getWriter]
  have hF : getWriter (Filter ctx p) = some (Writer.filterWriter w p) := by
    simp [Filter, h, setWriter, getWriter]
  have hFM : getWriter (Filter (Map ctx f) p)
      = some (Writer.filterWriter (Writer.mapWriter w f) p) := by
    simp [Filter, hM, setWriter, getWriter]
  have hMF : getWriter (Map (Filter ctx p) f)
      = some (Writer.mapWriter (Writer.filterWriter w p) f) := by
    simp [Map, hF, setWriter, getWriter]
  have hAM : getWriter (Attach (Map ctx f) u)
      = some (NewMultiWriter [Writer.mapWriter w f, u]) := by
    simp [Attach, hM, setWriter, getWriter]
  have e₁ : (Writer.filterWriter (Writer.mapWriter w f) p).WriteWarning β x σ
      = if p x then w.WriteWarning β (f x) σ else (none, σ) := by
    simp [Writer.WriteWarning]
  have e₂ : (Writer.mapWriter (Writer.filterWriter w p) f).WriteWarning β x σ
      = if p (f x) then w.WriteWarning β (f x) σ else (none, σ) := by
    simp [Writer.WriteWarning]
  have e₃ : (NewMultiWriter [Writer.mapWriter w f, u]).WriteWarning β x σ
      = (errorsJoin [(w.WriteWarning β (f x) σ).1,
            (u.WriteWarning β x (w.WriteWarning β (f x) σ).2).1],
          (u.WriteWarning β x (w.WriteWarning β (f x) σ).2).2) := by
    simp [NewMultiWriter, Writer.WriteWarning, Writer.writeEach]
  refine ⟨⟨hFM, e₁⟩, ⟨hMF, e₂⟩, ⟨hAM, e₃⟩, ?_⟩
  intro a b ha hb
  subst ha
  subst hb
  rw [Warn_eq_writeInOrder β _ _ [x] σ hFM, Warn_eq_writeInOrder β _ _ [x] σ hMF,
    Warn_eq_writeInOrder β _ _ [x] σ hAM]
  simp only [Writer.writeInOrder, e₁, e₂, e₃]
  refine ⟨?_, ?_, ?_⟩
  · cases hp : p x <;> simp [Writer.WriteWarning]
  · cases hp : p (f x) <;> simp [Writer.WriteWarning]
  · simp [Writer.WriteWarning]

theorem C24_later_operators_run_first_witness :
    (Warn (mockBehaviour fun _ => none)
        (Filter (Map (Attach Context.background (Writer.ext 0)) fun y => New (y.Warn ++ "!"))
          fun y => decide (y = New "a"))
        [New "a"] World.init).2.trace = [Event.write 0 (New "a!") none] ∧
    (Warn (mockBehaviour fun _ => none)
        (Map (Filter (Attach Context.background (Writer.ext 0)) fun y => decide (y = New "a"))
          fun y => New (y.Warn ++ "!"))
        [New "a"] World.init).2.trace = [] ∧
    (Warn (mockBehaviour fun _ => none)
        (Attach (Map (Attach Context.background (Writer.ext 0)) fun y => New (y.Warn ++ "!"))
          (Writer.ext 1))
        [New "a"] World.init).2.trace
      = [Event.write 0 (New "a!") none, Event.write 1 (New "a") none] :=
  (C24_later_operators_run_first (mockBehaviour fun _ => none)
    (Attach Context.background (Writer.ext 0)) (Writer.ext 0) (Writer.ext 1)
    (fun y => New (y.Warn ++ "!")) (fun y => decide (y = New "a")) (New "a") World.init
    rfl).2.2.2 0 1 rfl rfl

end GoWarning
